import Mathlib

/-!
Shallow embedding of the recall trading chatbot core.

The principal source is `trading_chat.py` (class `TradingChatSystem`): it is
the only variant that contains the full command dispatcher, the simulated
ledger, the strategies and the auto-trading scheduler together.  Where a
claim also cites the sibling variants `chat.py` and `trading_agent.py`,
the differences are noted next to the relevant definition.

Conventions:
* Python `float` amounts and prices are modelled as exact rationals.
* Python dictionaries are modelled as insertion-ordered association lists;
  assignment to a present key updates it in place, assignment to an absent
  key appends at the end, matching CPython dict semantics.
* Chat replies are modelled by the `Reply` inductive, one constructor per
  `return` site of a handler.  The presentational string formatting of the
  source is elided; a reply carries the data the formatted string depends on.
* Wall-clock time is abstracted by a natural-number tick supplied by the
  environment; it only feeds the opaque id and timestamp strings.
-/

set_option maxRecDepth 4000

namespace Recall

/- Batteries marks the rational-number operations `@[irreducible]`, which
stops `decide` from evaluating concrete trades.  Restore definitional
reducibility locally: all arithmetic on amounts and prices stays exact. -/
attribute [local semireducible] Rat.mul Rat.add Rat.sub Rat.inv Rat.ofScientific

/-- ASCII model of the regex class `\w` (chat input is ASCII text). -/
def isWordChar (c : Char) : Bool := c.isAlphanum || c = '_'

/-- ASCII model of the regex class `\s`, which is also the whitespace set of
Python `str.strip` and `str.split`. -/
def isPySpace (c : Char) : Bool :=
  c = ' ' || c = '\t' || c = '\n' || c = '\r' || c.toNat = 11 || c.toNat = 12

/-- The regex character class `[\d\.]`. -/
def isDigitDot (c : Char) : Bool := c.isDigit || c = '.'

/-- Python `str.lower` (ASCII). -/
def pyLower (s : String) : String := String.mk (s.data.map Char.toLower)

/-- Python `str.upper` (ASCII). -/
def pyUpper (s : String) : String := String.mk (s.data.map Char.toUpper)

/-- Python `str.strip` with no argument: drop whitespace at both ends. -/
def pyStrip (s : String) : String :=
  String.mk (((s.data.dropWhile isPySpace).reverse.dropWhile isPySpace).reverse)

/-- Helper for `splitWs`: accumulate the current word (reversed) while
splitting on runs of whitespace. -/
def splitWsAux : List Char → List Char → List String
  | [], acc => if acc.isEmpty then [] else [String.mk acc.reverse]
  | c :: rest, acc =>
    if isPySpace c then
      if acc.isEmpty then splitWsAux rest []
      else String.mk acc.reverse :: splitWsAux rest []
    else splitWsAux rest (c :: acc)

/-- Python `str.split` with no argument: split on whitespace runs, dropping
empty pieces. -/
def splitWs (s : String) : List String := splitWsAux s.data []

/-- Numeric value of a list of decimal digit characters. -/
def digitsVal (cs : List Char) : Nat :=
  cs.foldl (fun n c => n * 10 + (c.toNat - 48)) 0

/-- Python `float(s)` restricted to an optional sign followed by decimal
digits with at most one dot (the only shapes produced by the chat grammar,
whose amount capture is `[\d\.]+`).  Exponent, `inf`, `nan` and embedded
whitespace forms are rejected; no claim evaluates them. -/
def parseFloat (s : String) : Option ℚ :=
  let withSign : ℚ × List Char :=
    match s.data with
    | '-' :: rest => (-1, rest)
    | '+' :: rest => (1, rest)
    | cs => (1, cs)
  let sign := withSign.1
  let cs := withSign.2
  let intPart := cs.takeWhile Char.isDigit
  let rest := cs.dropWhile Char.isDigit
  match rest with
  | [] => if intPart.isEmpty then none else some (sign * (digitsVal intPart : ℚ))
  | '.' :: frac =>
    if frac.all Char.isDigit then
      if intPart.isEmpty && frac.isEmpty then none
      else some (sign * ((digitsVal intPart : ℚ) + (digitsVal frac : ℚ) / (10 ^ frac.length)))
    else none
  | _ => none

/-- Python `int(s)` restricted to an optional sign followed by decimal
digits. -/
def parseInt (s : String) : Option ℤ :=
  let withSign : ℤ × List Char :=
    match s.data with
    | '-' :: rest => (-1, rest)
    | '+' :: rest => (1, rest)
    | cs => (1, cs)
  if withSign.2.isEmpty || !(withSign.2.all Char.isDigit) then none
  else some (withSign.1 * (digitsVal withSign.2 : ℤ))

/-! ### Insertion-ordered association lists (Python dict) -/

/-- First value stored under key `k`, scanning left to right. -/
def lookupA {α : Type} : List (String × α) → String → Option α
  | [], _ => none
  | (k', v') :: rest, k => if k' = k then some v' else lookupA rest k

/-- Python `d[k] = v`: update a present key in place, append an absent one. -/
def updPut {α : Type} : List (String × α) → String → α → List (String × α)
  | [], k, v => [(k, v)]
  | (k', v') :: rest, k, v =>
    if k' = k then (k', v) :: rest else (k', v') :: updPut rest k v

/-- Python `d.get(k, 0)` on the balance dictionary. -/
def balGet (bal : List (String × ℚ)) (k : String) : ℚ := (lookupA bal k).getD 0

theorem lookupA_updPut_self {α : Type} (bal : List (String × α)) (k : String) (v : α) :
    lookupA (updPut bal k v) k = some v := by
  induction bal with
  | nil => simp [updPut, lookupA]
  | cons p rest ih =>
    obtain ⟨k', v'⟩ := p
    by_cases h : k' = k
    · simp [updPut, lookupA, h]
    · simp [updPut, lookupA, h, ih]

theorem lookupA_updPut_ne {α : Type} (bal : List (String × α)) (k k₂ : String) (v : α)
    (h : k₂ ≠ k) : lookupA (updPut bal k v) k₂ = lookupA bal k₂ := by
  induction bal with
  | nil =>
    have hne : ¬ k = k₂ := fun hc => h hc.symm
    simp [updPut, lookupA, hne]
  | cons p rest ih =>
    obtain ⟨k', v'⟩ := p
    by_cases hk : k' = k
    · subst hk
      have hne : ¬ k' = k₂ := fun hc => h hc.symm
      simp [updPut, lookupA, hne]
    · by_cases hk2 : k' = k₂
      · subst hk2
        have hne : ¬ k' = k := hk
        simp [updPut, lookupA, hne]
      · simp [updPut, lookupA, hk, hk2, ih]

theorem mem_updPut {α : Type} (bal : List (String × α)) (k : String) (v : α)
    (p : String × α) (hp : p ∈ updPut bal k v) : p.2 = v ∨ p ∈ bal := by
  induction bal with
  | nil =>
    simp [updPut] at hp
    subst hp
    exact Or.inl rfl
  | cons q rest ih =>
    obtain ⟨k', v'⟩ := q
    by_cases h : k' = k
    · simp [updPut, h] at hp
      rcases hp with hp | hp
      · subst hp; exact Or.inl rfl
      · exact Or.inr (List.mem_cons_of_mem _ hp)
    · simp [updPut, h] at hp
      rcases hp with hp | hp
      · subst hp; exact Or.inr (List.mem_cons_self _ _)
      · rcases ih hp with h2 | h2
        · exact Or.inl h2
        · exact Or.inr (List.mem_cons_of_mem _ h2)

theorem lookupA_mem {α : Type} (bal : List (String × α)) (k : String) (v : α)
    (h : lookupA bal k = some v) : (k, v) ∈ bal := by
  induction bal with
  | nil => simp [lookupA] at h
  | cons q rest ih =>
    obtain ⟨k', v'⟩ := q
    by_cases hk : k' = k
    · subst hk
      simp [lookupA] at h
      subst h
      exact List.mem_cons_self _ _
    · simp [lookupA, hk] at h
      exact List.mem_cons_of_mem _ (ih h)

theorem balGet_updPut_self (bal : List (String × ℚ)) (k : String) (v : ℚ) :
    balGet (updPut bal k v) k = v := by
  simp [balGet, lookupA_updPut_self]

theorem balGet_updPut_ne (bal : List (String × ℚ)) (k k₂ : String) (v : ℚ)
    (h : k₂ ≠ k) : balGet (updPut bal k v) k₂ = balGet bal k₂ := by
  simp [balGet, lookupA_updPut_ne _ _ _ _ h]

/-! ### Data model -/

/-- One entry of the simulated market-data snapshot
(`TradingChatSystem.initialize_market_data`). -/
structure MarketEntry where
  price : ℚ
  change24h : ℚ
  high24h : ℚ
  low24h : ℚ
  volume : ℚ
deriving DecidableEq

/-- A price alert as built by `manage_alerts` under the `add` action. -/
structure Alert where
  id : String
  pair : String
  target_price : ℚ
  created : String
  triggered : Bool
deriving DecidableEq

/-- A trade record as built by `TradingChatSystem.execute_trade`. -/
structure TradeRecord where
  id : String
  from_token : String
  to_token : String
  amount : ℚ
  received : ℚ
  price : ℚ
  timestamp : String
  reason : String
  status : String
deriving DecidableEq

/-- The `self.config` dictionary of `TradingChatSystem`.  The source stores
ints and floats; both are modelled as rationals, and `manage_settings`
remembers which keys are float-typed when converting a new value. -/
structure Config where
  default_trade_amount : ℚ
  max_trade_amount : ℚ
  min_trade_amount : ℚ
  alert_check_interval : ℚ
  trade_interval : ℚ
  risk_factor : ℚ
  stop_loss : ℚ
  take_profit : ℚ
deriving DecidableEq

/-- Initial configuration of `TradingChatSystem.__init__`. -/
def defaultConfig : Config where
  default_trade_amount := 100
  max_trade_amount := 10000
  min_trade_amount := 10
  alert_check_interval := 60
  trade_interval := 300
  risk_factor := 0.02
  stop_loss := 0.05
  take_profit := 0.10

/-- The `self.TOKENS` symbol-to-address table of `trading_chat.py`. -/
def TOKENS : List (String × String) :=
  [("USDC", "0xA0b86991c6218b36c1d19D4a2e9Eb0cE3606eB48"),
   ("WETH", "0xC02aaA39b223FE8D0A0e5C4F27eAD9083C756Cc2"),
   ("DAI", "0x6B175474E89094C44Da98b954EedeAC495271d0F"),
   ("WBTC", "0x2260FAC5E5542a773Aa44fBCfeDf7C193bc2C599"),
   ("UNI", "0x1f9840a85d5aF5bf1D1762F925BDADdC4201F984"),
   ("LINK", "0x514910771AF9Ca656af840dff83E8264EcF986CA"),
   ("AAVE", "0x7Fc66500c84A76Ad7e9c93437bFc5Ac33E2DDaE9"),
   ("MATIC", "0x7D1AfA7B718fb893dB30A3aBc0Cfc608AaCfeBB0")]

/-- The known token symbols, in table order. -/
def tokenKeys : List String := TOKENS.map Prod.fst

/-- `TradingChatSystem.get_initial_balance`. -/
def initialBalance : List (String × ℚ) :=
  [("USDC", 10000), ("WETH", 5), ("DAI", 5000), ("WBTC", 0.25)]

/-- `TradingChatSystem.initialize_market_data`. -/
def initMarketData : List (String × MarketEntry) :=
  [("USDC_WETH", ⟨0.00048, 0.023, 0.00050, 0.00046, 42500000⟩),
   ("WETH_BTC", ⟨0.053, -0.012, 0.055, 0.052, 18200000⟩),
   ("USDC_DAI", ⟨0.999, 0.001, 1.001, 0.998, 28700000⟩),
   ("WETH_UNI", ⟨15.2, 0.018, 15.5, 14.9, 5200000⟩),
   ("USDC_WBTC", ⟨0.000032, -0.005, 0.000033, 0.000031, 18300000⟩)]

/-- Full system state: the mutable attributes of a `TradingChatSystem`
instance.  `live_loops` counts spawned `auto_trading_loop` threads that have
not yet observed a stop at their `while` condition; the Python
`auto_trading_thread` handle carries no further semantic content. -/
structure TradingChatSystem where
  balance : List (String × ℚ)
  trade_history : List TradeRecord
  active_strategy : Option String
  auto_trading_active : Bool
  stop_event_set : Bool
  user_state : List (String × List Alert)
  market_data : List (String × MarketEntry)
  config : Config
  live_loops : Nat
deriving DecidableEq

/-- State of a fresh `TradingChatSystem(sandbox=True)`. -/
def initSys : TradingChatSystem where
  balance := initialBalance
  trade_history := []
  active_strategy := none
  auto_trading_active := false
  stop_event_set := false
  user_state := []
  market_data := initMarketData
  config := defaultConfig
  live_loops := 0

/-- The second component returned by `parse_command`: either no parameter,
one string, or the three captures of the trade pattern. -/
inductive Params where
  | noParams
  | strParam (s : String)
  | tripleParam (a b c : String)
deriving DecidableEq

/-! ### The command grammar (`TradingChatSystem.parse_command`)

Each Python regex below is translated into a deterministic maximal-munch
matcher.  This is faithful because in every pattern two adjacent variable
pieces draw from disjoint character classes (`\w` versus `\s`, `\s` versus a
literal letter), so the backtracking regex engine has exactly one viable
split; the one exception, `(\w+_\w+)`, is analysed at `pairGroup`. -/

/-- Consume the literal `lit` from the front of `cs`. -/
def dropLit : List Char → List Char → Option (List Char)
  | [], cs => some cs
  | _ :: _, [] => none
  | l :: ls, c :: cs => if c = l then dropLit ls cs else none

/-- Consume a maximal nonempty run of characters satisfying `p`
(the regex `p+`). -/
def munch1 (p : Char → Bool) (cs : List Char) : Option (List Char × List Char) :=
  let t := cs.takeWhile p
  if t.isEmpty then none else some (t, cs.dropWhile p)

/-- Whether a `\w` run has an underscore that is neither its first nor its
last character. -/
def hasInnerUnderscore (w : List Char) : Bool := ((w.drop 1).dropLast).contains '_'

/-- The group `(\w+_\w+)`: greedy matching with backtracking consumes the
whole maximal `\w` run and succeeds exactly when that run contains an inner
underscore (the first `\w+` backtracks to the last underscore that leaves a
nonempty tail, and the second `\w+` then swallows the rest of the run). -/
def pairGroup (cs : List Char) : Option (String × List Char) :=
  match munch1 isWordChar cs with
  | none => none
  | some (w, rest) =>
    if hasInnerUnderscore w then some (String.mk w, rest) else none

/-- `re.match(r'trade\s+(\w+)\s+to\s+(\w+)\s+([\d\.]+)', text)`. -/
def tradeMatch (cs : List Char) : Option (String × String × String) := do
  let cs ← dropLit "trade".data cs
  let (_, cs) ← munch1 isPySpace cs
  let (w1, cs) ← munch1 isWordChar cs
  let (_, cs) ← munch1 isPySpace cs
  let cs ← dropLit "to".data cs
  let (_, cs) ← munch1 isPySpace cs
  let (w2, cs) ← munch1 isWordChar cs
  let (_, cs) ← munch1 isPySpace cs
  let (num, _) ← munch1 isDigitDot cs
  pure (String.mk w1, String.mk w2, String.mk num)

/-- `re.match(r'market\s+(\w+_\w+)', text)`. -/
def marketMatch (cs : List Char) : Option String := do
  let cs ← dropLit "market".data cs
  let (_, cs) ← munch1 isPySpace cs
  let (g, _) ← pairGroup cs
  pure g

/-- `re.match(r'strategy\s+(\w+)', text)`. -/
def strategyMatch (cs : List Char) : Option String := do
  let cs ← dropLit "strategy".data cs
  let (_, cs) ← munch1 isPySpace cs
  let (w, _) ← munch1 isWordChar cs
  pure (String.mk w)

/-- `re.match(r'price\s+(\w+_\w+)', text)`. -/
def priceMatch (cs : List Char) : Option String := do
  let cs ← dropLit "price".data cs
  let (_, cs) ← munch1 isPySpace cs
  let (g, _) ← pairGroup cs
  pure g

/-- `re.match(r'alerts\s+(add|remove|list)\s*(.*)', text)`, followed by the
source-side `group(2).strip()` and the f-string `f"{action} {param}"`.
Chat input contains no newline, so `(.*)` takes the whole remainder. -/
def alertsMatch (cs : List Char) : Option String := do
  let cs ← dropLit "alerts".data cs
  let (_, cs) ← munch1 isPySpace cs
  let (action, cs) ←
    match dropLit "add".data cs with
    | some r => some ("add", r)
    | none =>
      match dropLit "remove".data cs with
      | some r => some ("remove", r)
      | none =>
        match dropLit "list".data cs with
        | some r => some ("list", r)
        | none => none
  let rest := cs.dropWhile isPySpace
  let param := pyStrip (String.mk rest)
  pure (action ++ " " ++ param)

/-- Insertion order of the `self.commands` dictionary of `trading_chat.py`. -/
def commandNames : List String :=
  ["help", "trade", "balance", "market", "history", "strategy", "price",
   "alerts", "portfolio", "tokens", "exit", "settings", "start", "stop", "status"]

/-- Python `str.startswith`. -/
def listIsPrefix : List Char → List Char → Bool
  | [], _ => true
  | _ :: _, [] => false
  | c :: cs, d :: ds => c = d && listIsPrefix cs ds

/-- The fallback loop `for cmd in self.commands: if text.startswith(cmd)`. -/
def firstPrefixCmd (n : String) : Option String :=
  commandNames.find? (fun c => listIsPrefix c.data n.data)

/-- `TradingChatSystem.parse_command`. -/
def parse_command (t : String) : String × Params :=
  let n := pyLower (pyStrip t)
  let cs := n.data
  match tradeMatch cs with
  | some (a, b, c) => ("trade", Params.tripleParam a b c)
  | none =>
  match marketMatch cs with
  | some g => ("market", Params.strParam g)
  | none =>
  match strategyMatch cs with
  | some g => ("strategy", Params.strParam g)
  | none =>
  match priceMatch cs with
  | some g => ("price", Params.strParam g)
  | none =>
  match alertsMatch cs with
  | some g => ("alerts", Params.strParam g)
  | none =>
  match firstPrefixCmd n with
  | some cmd => (cmd, Params.noParams)
  | none => ("unknown", Params.strParam n)

/-! ### Replies

One constructor per `return` site of a handler of `trading_chat.py`.
`processingError` stands for an exception escaping a handler and being
caught by the `except` clause of `start_chat`. -/

inductive Reply where
  | helpText
  | tradeFormatError
  | invalidFromToken (t : String)
  | invalidToToken (t : String)
  | amountTooSmall
  | amountTooLarge
  | invalidAmount
  | insufficientBalance (t : String) (avail : ℚ)
  | tradeSuccess (r : TradeRecord)
  | balanceInfo (bal : List (String × ℚ))
  | marketInfo (pair : Option String)
  | noMarketData (pair : String)
  | historyInfo (h : List TradeRecord)
  | strategyShow (s : Option String)
  | strategySet (s : String)
  | strategyInvalid (s : String)
  | priceInfo (pair : String) (p : ℚ)
  | noPriceData (pair : String)
  | priceUsage
  | alertsUsage
  | alertAdded (a : Alert)
  | alertInvalidPrice
  | alertRemoved (id : String)
  | alertNotFound (id : String)
  | alertList (as : List Alert)
  | alertInvalidCommand
  | portfolioInfo
  | tokensInfo
  | settingsShow (c : Config)
  | settingsUpdated (k : String) (v : ℚ)
  | settingsInvalidValue (k : String)
  | settingsUnknown (k : String)
  | settingsFormatError
  | noStrategySet
  | alreadyRunning
  | autoTradingStarted (s : String)
  | notRunning
  | autoTradingStopped
  | statusInfo
  | goodbye
  | didNotUnderstand (raw : String)
  | processingError
deriving DecidableEq

/-! ### Trade execution -/

/-- The price-selection algorithm inside `TradingChatSystem.execute_trade`:
ordered pair first, then the reciprocal of the inverse pair, then 1.0. -/
def trade_price (md : List (String × MarketEntry)) (fr toT : String) : ℚ :=
  match lookupA md (fr ++ "_" ++ toT) with
  | some e => e.price
  | none =>
    match lookupA md (toT ++ "_" ++ fr) with
    | some e => 1 / e.price
    | none => 1

/-- `TradingChatSystem.execute_trade`.  The source performs no checks of its
own; `self.balance[from_token] -= amount` raises `KeyError` when the source
token has no ledger entry, modelled by `none` (no mutation has happened at
that point). -/
def execute_trade (tick : Nat) (st : TradingChatSystem) (fr toT : String)
    (amount : ℚ) (reason : String) : Option (TradingChatSystem × TradeRecord) :=
  let price := trade_price st.market_data fr toT
  let received := amount * price
  match lookupA st.balance fr with
  | none => none
  | some bf =>
    let bal1 := updPut st.balance fr (bf - amount)
    let bal2 := updPut bal1 toT (balGet bal1 toT + received)
    let trec : TradeRecord :=
      { id := "TRADE-" ++ toString (st.trade_history.length + 1) ++ "-" ++ toString tick
        from_token := fr
        to_token := toT
        amount := amount
        received := received
        price := price
        timestamp := toString tick
        reason := reason
        status := "executed" }
    some ({ st with balance := bal2, trade_history := st.trade_history ++ [trec] }, trec)

/-- Unpacking of `params` at the top of `handle_trade`: a triple unpacks
directly; any other sequence of Python length 3 (such as a 3-character
string) unpacks into its items; everything else fails the
`len(params) != 3` guard. -/
def getTriple : Params → Option (String × String × String)
  | Params.tripleParam a b c => some (a, b, c)
  | Params.strParam s =>
    match s.data with
    | [x, y, z] => some (String.mk [x], String.mk [y], String.mk [z])
    | _ => none
  | Params.noParams => none

/-- `TradingChatSystem.handle_trade`. -/
def handle_trade (tick : Nat) (st : TradingChatSystem) (uid : String)
    (params : Params) : TradingChatSystem × Reply :=
  match getTriple params with
  | none => (st, Reply.tradeFormatError)
  | some (f0, t0, a0) =>
    let fr := pyUpper f0
    let toT := pyUpper t0
    if !(tokenKeys.contains fr) then (st, Reply.invalidFromToken fr)
    else if !(tokenKeys.contains toT) then (st, Reply.invalidToToken toT)
    else
      match parseFloat a0 with
      | none => (st, Reply.invalidAmount)
      | some amount =>
        if amount < st.config.min_trade_amount then (st, Reply.amountTooSmall)
        else if amount > st.config.max_trade_amount then (st, Reply.amountTooLarge)
        else if (lookupA st.balance fr).isNone || decide (balGet st.balance fr < amount) then
          (st, Reply.insufficientBalance fr (balGet st.balance fr))
        else
          match execute_trade tick st fr toT amount ("User " ++ uid ++ " initiated trade") with
          | some (st', trec) => (st', Reply.tradeSuccess trec)
          | none => (st, Reply.processingError)

/-! ### The remaining command handlers -/

/-- Keys of the `self.strategies` dictionary. -/
def strategyNames : List String := ["trend", "meanreversion", "arbitrage", "random"]

/-- Python truthiness of the optional strategy name:
`None` and the empty string are falsy. -/
def strFalsyOpt : Option String → Bool
  | none => true
  | some s => s = ""

/-- `TradingChatSystem.set_strategy`. -/
def set_strategy (st : TradingChatSystem) (params : Params) : TradingChatSystem × Reply :=
  match params with
  | Params.noParams => (st, Reply.strategyShow st.active_strategy)
  | Params.tripleParam _ _ _ => (st, Reply.processingError)
  | Params.strParam name =>
    if name = "" then (st, Reply.strategyShow st.active_strategy)
    else
      let n := pyLower name
      if strategyNames.contains n then
        ({ st with active_strategy := some n }, Reply.strategySet n)
      else (st, Reply.strategyInvalid n)

/-- `TradingChatSystem.get_market_data` (read-only). -/
def get_market_data (st : TradingChatSystem) (params : Params) : Reply :=
  match params with
  | Params.strParam p =>
    let up := pyUpper p
    if (lookupA st.market_data up).isSome then Reply.marketInfo (some up)
    else Reply.noMarketData up
  | Params.noParams => Reply.marketInfo none
  | Params.tripleParam _ _ _ => Reply.processingError

/-- `TradingChatSystem.get_price` (read-only). -/
def get_price (st : TradingChatSystem) (params : Params) : Reply :=
  match params with
  | Params.strParam p =>
    let up := pyUpper p
    match lookupA st.market_data up with
    | some e => Reply.priceInfo up e.price
    | none => Reply.noPriceData up
  | Params.noParams => Reply.priceUsage
  | Params.tripleParam _ _ _ => Reply.processingError

/-- Delete the first alert whose id equals `aid`
(the `remove` loop of `manage_alerts`). -/
def removeFirstById : List Alert → String → Option (List Alert)
  | [], _ => none
  | a :: rest, aid =>
    if a.id = aid then some rest
    else (removeFirstById rest aid).map (fun l => a :: l)

/-- `TradingChatSystem.manage_alerts`.  The source first initialises
`user_state[user_id]["alerts"]` (in every branch past the usage check) and
then acts; `now` abstracts `datetime.now().isoformat()`. -/
def manage_alerts (now : String) (st : TradingChatSystem) (uid : String)
    (params : Params) : TradingChatSystem × Reply :=
  match params with
  | Params.noParams => (st, Reply.alertsUsage)
  | Params.tripleParam _ _ _ => (st, Reply.processingError)
  | Params.strParam s =>
    if s = "" then (st, Reply.alertsUsage)
    else
      let alerts := (lookupA st.user_state uid).getD []
      match splitWs s with
      | [] =>
        ({ st with user_state := updPut st.user_state uid alerts },
         Reply.alertInvalidCommand)
      | action :: rest =>
        if action = "add" then
          match rest with
          | pairStr :: priceStr :: _ =>
            match parseFloat priceStr with
            | some tp =>
              let a : Alert :=
                { id := "ALERT-" ++ toString (alerts.length + 1)
                  pair := pyUpper pairStr
                  target_price := tp
                  created := now
                  triggered := false }
              ({ st with user_state := updPut st.user_state uid (alerts ++ [a]) },
               Reply.alertAdded a)
            | none =>
              ({ st with user_state := updPut st.user_state uid alerts },
               Reply.alertInvalidPrice)
          | _ =>
            ({ st with user_state := updPut st.user_state uid alerts },
             Reply.alertInvalidCommand)
        else if action = "remove" then
          match rest with
          | aid :: _ =>
            match removeFirstById alerts aid with
            | some alerts' =>
              ({ st with user_state := updPut st.user_state uid alerts' },
               Reply.alertRemoved aid)
            | none =>
              ({ st with user_state := updPut st.user_state uid alerts },
               Reply.alertNotFound aid)
          | [] =>
            ({ st with user_state := updPut st.user_state uid alerts },
             Reply.alertInvalidCommand)
        else if action = "list" then
          ({ st with user_state := updPut st.user_state uid alerts },
           Reply.alertList alerts)
        else
          ({ st with user_state := updPut st.user_state uid alerts },
           Reply.alertInvalidCommand)

/-- Whether a configuration key exists and whether it is float-typed in the
source (`risk_factor`, `stop_loss`, `take_profit`; the rest are ints). -/
def configFieldIsFloat (k : String) : Bool :=
  k = "risk_factor" || k = "stop_loss" || k = "take_profit"

def configHasKey (k : String) : Bool :=
  k = "default_trade_amount" || k = "max_trade_amount" || k = "min_trade_amount" ||
  k = "alert_check_interval" || k = "trade_interval" || configFieldIsFloat k

def setConfigField (c : Config) (k : String) (v : ℚ) : Config :=
  if k = "default_trade_amount" then { c with default_trade_amount := v }
  else if k = "max_trade_amount" then { c with max_trade_amount := v }
  else if k = "min_trade_amount" then { c with min_trade_amount := v }
  else if k = "alert_check_interval" then { c with alert_check_interval := v }
  else if k = "trade_interval" then { c with trade_interval := v }
  else if k = "risk_factor" then { c with risk_factor := v }
  else if k = "stop_loss" then { c with stop_loss := v }
  else if k = "take_profit" then { c with take_profit := v }
  else c

/-- `TradingChatSystem.manage_settings`.  Note that `parse_command` has no
settings pattern, so the dispatcher always reaches this handler with
`noParams` and only the display branch is live in the chat session; the
update branch is nevertheless modelled for direct invocations. -/
def manage_settings (st : TradingChatSystem) (params : Params) :
    TradingChatSystem × Reply :=
  match params with
  | Params.noParams => (st, Reply.settingsShow st.config)
  | Params.tripleParam _ _ _ => (st, Reply.processingError)
  | Params.strParam s =>
    if s = "" then (st, Reply.settingsShow st.config)
    else
      match splitWs s with
      | [setting, value] =>
        if configHasKey setting then
          let parsed : Option ℚ :=
            if configFieldIsFloat setting then parseFloat value
            else (parseInt value).map (fun n => (n : ℚ))
          match parsed with
          | some v =>
            ({ st with config := setConfigField st.config setting v },
             Reply.settingsUpdated setting v)
          | none => (st, Reply.settingsInvalidValue setting)
        else (st, Reply.settingsUnknown setting)
      | _ => (st, Reply.settingsFormatError)

/-- `TradingChatSystem.start_auto_trading`: refuse without a strategy, report
when already running, else raise the flag, clear the stop event and spawn
one `auto_trading_loop` thread. -/
def start_auto_trading (st : TradingChatSystem) : TradingChatSystem × Reply :=
  if strFalsyOpt st.active_strategy then (st, Reply.noStrategySet)
  else if st.auto_trading_active then (st, Reply.alreadyRunning)
  else
    ({ st with auto_trading_active := true, stop_event_set := false,
               live_loops := st.live_loops + 1 },
     Reply.autoTradingStarted (st.active_strategy.getD ""))

/-- `TradingChatSystem.stop_auto_trading`. -/
def stop_auto_trading (st : TradingChatSystem) : TradingChatSystem × Reply :=
  if !st.auto_trading_active then (st, Reply.notRunning)
  else
    ({ st with auto_trading_active := false, stop_event_set := true },
     Reply.autoTradingStopped)

/-- `TradingChatSystem.exit_bot`: stops auto-trading and says goodbye. -/
def exit_bot (st : TradingChatSystem) : TradingChatSystem × Reply :=
  ((stop_auto_trading st).1, Reply.goodbye)

/-! ### Alert checking (`TradingChatSystem.check_alerts`) -/

/-- The trigger test of `check_alerts`: the pair has market data and the
current price has reached the target. -/
def priceReached (md : List (String × MarketEntry)) (a : Alert) : Bool :=
  match lookupA md a.pair with
  | some e => decide (a.target_price ≤ e.price)
  | none => false

/-- Flip the triggered flag. -/
def setTriggered (a : Alert) : Alert := { a with triggered := true }

/-- Inner loop of `check_alerts` over one list of alerts: flip and report the
first untriggered alert whose price has reached its target; `none` when no
alert fires (the list is then untouched). -/
def checkAlertsList (md : List (String × MarketEntry)) :
    List Alert → Option (Alert × List Alert)
  | [] => none
  | a :: rest =>
    if !a.triggered && priceReached md a then some (a, setTriggered a :: rest)
    else (checkAlertsList md rest).map (fun p => (p.1, a :: p.2))

/-- `TradingChatSystem.check_alerts`: scan users in insertion order, return
on the first alert that fires, mutating only that alert. -/
def check_alerts (md : List (String × MarketEntry)) :
    List (String × List Alert) → Option ((String × Alert) × List (String × List Alert))
  | [] => none
  | (u, as) :: rest =>
    match checkAlertsList md as with
    | some (a, as') => some ((u, a), (u, as') :: rest)
    | none =>
      (check_alerts md rest).map (fun p => (p.1, (u, as) :: p.2))

/-- State effect of one alert check, as run by `start_chat` and by the
auto-trading loop; only `user_state` can change. -/
def alert_check_step (st : TradingChatSystem) : TradingChatSystem :=
  match check_alerts st.market_data st.user_state with
  | none => st
  | some (_, us') => { st with user_state := us' }

/-! ### Strategies -/

/-- `TradingChatSystem.trend_following_strategy`. -/
def trend_following_strategy (st : TradingChatSystem) :
    Option (String × String × ℚ) :=
  match lookupA st.market_data "USDC_WETH" with
  | none => none
  | some d =>
    if d.change24h > 0.02 then
      some ("USDC", "WETH",
        min st.config.default_trade_amount
            (balGet st.balance "USDC" * st.config.risk_factor))
    else if d.change24h < -0.01 then
      some ("WETH", "USDC",
        min 0.1 (balGet st.balance "WETH" * st.config.risk_factor))
    else none

/-- `TradingChatSystem.mean_reversion_strategy`. -/
def mean_reversion_strategy (st : TradingChatSystem) :
    Option (String × String × ℚ) :=
  match lookupA st.market_data "USDC_WETH" with
  | none => none
  | some d =>
    let meanPrice := (d.high24h + d.low24h) / 2
    if d.price < meanPrice * 0.98 then
      some ("USDC", "WETH",
        min st.config.default_trade_amount
            (balGet st.balance "USDC" * st.config.risk_factor))
    else if d.price > meanPrice * 1.02 then
      some ("WETH", "USDC",
        min 0.1 (balGet st.balance "WETH" * st.config.risk_factor))
    else none

/-- `TradingChatSystem.random_strategy`, as a function of the random draws:
`fr` and `toT` are the two distinct tokens chosen by `random.choice` and `u`
is the `random.uniform(10, 100)` draw; the step relation carries the
constraints on them. -/
def random_strategy (st : TradingChatSystem) (fr toT : String) (u : ℚ) :
    Option (String × String × ℚ) :=
  if tokenKeys.length < 2 then none
  else
    let maxAmount := balGet st.balance fr
    if maxAmount > 0 then some (fr, toT, min u (maxAmount * st.config.risk_factor))
    else none

/-- `TradingChatSystem.generate_trade_decision`. -/
def generate_trade_decision (st : TradingChatSystem) (fr toT : String) (u : ℚ) :
    Option (String × String × ℚ) :=
  match st.active_strategy with
  | none => none
  | some s =>
    if s = "trend" then trend_following_strategy st
    else if s = "meanreversion" then mean_reversion_strategy st
    else if s = "random" then random_strategy st fr toT u
    else none

/-- One trade attempt of `auto_trading_loop` once the trade interval has
elapsed: take a decision and execute it; a `KeyError` inside
`execute_trade` is caught by the loop body, leaving the state unchanged. -/
def bg_trade_step (tick : Nat) (st : TradingChatSystem) (fr toT : String)
    (u : ℚ) : TradingChatSystem :=
  match generate_trade_decision st fr toT u with
  | none => st
  | some (f, t, a) =>
    match execute_trade tick st f t a "Auto-trade" with
    | none => st
    | some (st', _) => st'

/-! ### Dispatch (`TradingChatSystem.start_chat` command loop) -/

/-- Route a parsed command to its handler, mirroring the `self.commands`
dictionary lookup; the chat session uses the fixed user id `user_001`. -/
def dispatchCmd (tick : Nat) (st : TradingChatSystem) (cmd : String)
    (params : Params) (input : String) : TradingChatSystem × Reply :=
  if cmd = "help" then (st, Reply.helpText)
  else if cmd = "trade" then handle_trade tick st "user_001" params
  else if cmd = "balance" then (st, Reply.balanceInfo st.balance)
  else if cmd = "market" then (st, get_market_data st params)
  else if cmd = "history" then (st, Reply.historyInfo st.trade_history)
  else if cmd = "strategy" then set_strategy st params
  else if cmd = "price" then (st, get_price st params)
  else if cmd = "alerts" then manage_alerts (toString tick) st "user_001" params
  else if cmd = "portfolio" then (st, Reply.portfolioInfo)
  else if cmd = "tokens" then (st, Reply.tokensInfo)
  else if cmd = "exit" then exit_bot st
  else if cmd = "settings" then manage_settings st params
  else if cmd = "start" then start_auto_trading st
  else if cmd = "stop" then stop_auto_trading st
  else if cmd = "status" then (st, Reply.statusInfo)
  else (st, Reply.didNotUnderstand input)

/-- One foreground command: parse the raw input and dispatch it. -/
def dispatch (tick : Nat) (st : TradingChatSystem) (input : String) :
    TradingChatSystem × Reply :=
  let pc := parse_command input
  dispatchCmd tick st pc.1 pc.2 input

/-! ### Step relation

Interleaving semantics of the process: the foreground command loop, the
iterations of any live `auto_trading_loop` thread, and the moment such a
thread observes the stop condition at its `while` check and exits. -/

/-- Observable step labels. -/
inductive Label where
  | user (tick : Nat) (input : String)
  | bgTrade (tick : Nat) (fr toT : String) (u : ℚ)
  | alertTick
  | loopExit
deriving DecidableEq

/-- Whether a label is the foreground `start` command (the only step that
can raise the auto-trading flag or spawn a loop). -/
def isStartLabel : Label → Bool
  | Label.user _ input => (parse_command input).1 = "start"
  | _ => false

/-- Whether a label is a background trade attempt. -/
def isBgTradeLabel : Label → Bool
  | Label.bgTrade _ _ _ _ => true
  | _ => false

/-- One step of the system.  A background step requires a live loop whose
`while self.auto_trading_active and not self.stop_event.is_set()` guard
passed; the random-strategy draws carried by `bgTrade` satisfy the
constraints `random.choice`/`random.uniform` guarantee. -/
inductive Step : TradingChatSystem → Label → TradingChatSystem → Prop where
  | user (tick : Nat) (st : TradingChatSystem) (input : String) :
      Step st (Label.user tick input) (dispatch tick st input).1
  | bgTrade (tick : Nat) (st : TradingChatSystem) (fr toT : String) (u : ℚ)
      (ha : st.auto_trading_active = true) (hs : st.stop_event_set = false)
      (hl : 0 < st.live_loops)
      (hf : fr ∈ tokenKeys) (ht : toT ∈ tokenKeys) (hne : toT ≠ fr)
      (hu1 : (10 : ℚ) ≤ u) (hu2 : u ≤ 100) :
      Step st (Label.bgTrade tick fr toT u) (bg_trade_step tick st fr toT u)
  | alertTick (st : TradingChatSystem) :
      Step st Label.alertTick (alert_check_step st)
  | loopExit (st : TradingChatSystem) (hl : 0 < st.live_loops)
      (hcond : st.auto_trading_active = false ∨ st.stop_event_set = true) :
      Step st Label.loopExit { st with live_loops := st.live_loops - 1 }

/-- States reachable from a fresh system. -/
inductive Reachable : TradingChatSystem → Prop where
  | init : Reachable initSys
  | step {s s' : TradingChatSystem} {l : Label} :
      Reachable s → Step s l s' → Reachable s'

/-- A finite run, recording its labels. -/
inductive Trace : TradingChatSystem → List Label → TradingChatSystem → Prop where
  | nil (s : TradingChatSystem) : Trace s [] s
  | cons {s s' s'' : TradingChatSystem} {l : Label} {ls : List Label} :
      Step s l s' → Trace s' ls s'' → Trace s (l :: ls) s''

/-- Reachability restricted to runs in which a `start` command is only
issued while the auto-trading flag is up (a no-op) or while no previously
spawned loop is still live — that is, every stopped loop has observed the
stop at a poll boundary before the next `start`. -/
inductive ReachSafe : TradingChatSystem → Prop where
  | init : ReachSafe initSys
  | step {s s' : TradingChatSystem} {l : Label} :
      ReachSafe s → Step s l s' →
      (isStartLabel l = true → s.auto_trading_active = true ∨ s.live_loops = 0) →
      ReachSafe s'

/-! ### Frame lemmas: which state fields each operation can touch -/

/-- The three scheduler control fields plus the strategy selection. -/
def CtlEq (st st' : TradingChatSystem) : Prop :=
  st'.auto_trading_active = st.auto_trading_active ∧
  st'.stop_event_set = st.stop_event_set ∧
  st'.live_loops = st.live_loops

theorem execute_trade_frame (tick : Nat) (st : TradingChatSystem)
    (fr toT : String) (amount : ℚ) (reason : String)
    (st' : TradingChatSystem) (r : TradeRecord)
    (h : execute_trade tick st fr toT amount reason = some (st', r)) :
    st'.active_strategy = st.active_strategy ∧ CtlEq st st' ∧
    st'.user_state = st.user_state ∧ st'.config = st.config ∧
    st'.market_data = st.market_data := by
  unfold execute_trade at h
  cases hb : lookupA st.balance fr with
  | none => rw [hb] at h; simp at h
  | some bf =>
    rw [hb] at h
    simp only [Option.some.injEq, Prod.mk.injEq] at h
    obtain ⟨hst, _⟩ := h
    subst hst
    exact ⟨rfl, ⟨rfl, rfl, rfl⟩, rfl, rfl, rfl⟩

theorem handle_trade_frame (tick : Nat) (st : TradingChatSystem) (uid : String)
    (params : Params) :
    (handle_trade tick st uid params).1.active_strategy = st.active_strategy ∧
    CtlEq st (handle_trade tick st uid params).1 ∧
    (handle_trade tick st uid params).1.user_state = st.user_state ∧
    (handle_trade tick st uid params).1.config = st.config ∧
    (handle_trade tick st uid params).1.market_data = st.market_data := by
  unfold handle_trade
  dsimp only
  repeat' split
  all_goals try exact ⟨rfl, ⟨rfl, rfl, rfl⟩, rfl, rfl, rfl⟩
  all_goals rename_i st' trec heq
  all_goals exact execute_trade_frame _ _ _ _ _ _ _ _ heq

theorem set_strategy_frame (st : TradingChatSystem) (params : Params) :
    (set_strategy st params).1.balance = st.balance ∧
    CtlEq st (set_strategy st params).1 ∧
    (set_strategy st params).1.trade_history = st.trade_history ∧
    (set_strategy st params).1.user_state = st.user_state ∧
    (set_strategy st params).1.config = st.config ∧
    (set_strategy st params).1.market_data = st.market_data := by
  unfold set_strategy
  dsimp only
  repeat' split
  all_goals exact ⟨rfl, ⟨rfl, rfl, rfl⟩, rfl, rfl, rfl, rfl⟩

theorem manage_alerts_frame (now : String) (st : TradingChatSystem)
    (uid : String) (params : Params) :
    (manage_alerts now st uid params).1.balance = st.balance ∧
    CtlEq st (manage_alerts now st uid params).1 ∧
    (manage_alerts now st uid params).1.active_strategy = st.active_strategy ∧
    (manage_alerts now st uid params).1.trade_history = st.trade_history ∧
    (manage_alerts now st uid params).1.config = st.config ∧
    (manage_alerts now st uid params).1.market_data = st.market_data := by
  unfold manage_alerts
  dsimp only
  repeat' split
  all_goals exact ⟨rfl, ⟨rfl, rfl, rfl⟩, rfl, rfl, rfl, rfl⟩

theorem manage_settings_frame (st : TradingChatSystem) (params : Params) :
    (manage_settings st params).1.balance = st.balance ∧
    CtlEq st (manage_settings st params).1 ∧
    (manage_settings st params).1.active_strategy = st.active_strategy ∧
    (manage_settings st params).1.trade_history = st.trade_history ∧
    (manage_settings st params).1.user_state = st.user_state ∧
    (manage_settings st params).1.market_data = st.market_data := by
  unfold manage_settings
  dsimp only
  repeat' split
  all_goals exact ⟨rfl, ⟨rfl, rfl, rfl⟩, rfl, rfl, rfl, rfl⟩

theorem alert_check_frame (st : TradingChatSystem) :
    (alert_check_step st).balance = st.balance ∧
    CtlEq st (alert_check_step st) ∧
    (alert_check_step st).active_strategy = st.active_strategy ∧
    (alert_check_step st).trade_history = st.trade_history ∧
    (alert_check_step st).config = st.config ∧
    (alert_check_step st).market_data = st.market_data := by
  unfold alert_check_step
  split <;> exact ⟨rfl, ⟨rfl, rfl, rfl⟩, rfl, rfl, rfl, rfl⟩

theorem bg_trade_frame (tick : Nat) (st : TradingChatSystem) (fr toT : String)
    (u : ℚ) :
    (bg_trade_step tick st fr toT u).active_strategy = st.active_strategy ∧
    CtlEq st (bg_trade_step tick st fr toT u) ∧
    (bg_trade_step tick st fr toT u).user_state = st.user_state ∧
    (bg_trade_step tick st fr toT u).config = st.config ∧
    (bg_trade_step tick st fr toT u).market_data = st.market_data := by
  unfold bg_trade_step
  split
  · exact ⟨rfl, ⟨rfl, rfl, rfl⟩, rfl, rfl, rfl⟩
  · split
    · exact ⟨rfl, ⟨rfl, rfl, rfl⟩, rfl, rfl, rfl⟩
    · next st' r heq => exact execute_trade_frame _ _ _ _ _ _ _ _ heq

/-! ### Parse-shape and dispatch-control lemmas -/

/-- The parser never attaches a parameter to the `settings` command: there
is no settings regex, so `settings` only comes out of the prefix loop with
`noParams`.  Consequently the configuration is immutable through the chat
session. -/
theorem parse_cmd_settings (t : String)
    (h : (parse_command t).1 = "settings") :
    (parse_command t).2 = Params.noParams := by
  unfold parse_command at h ⊢
  cases htr : tradeMatch (pyLower (pyStrip t)).data with
  | some v =>
    obtain ⟨a, b, c⟩ := v
    simp only [htr] at h
    exact absurd h (by decide)
  | none =>
  simp only [htr] at h ⊢
  cases hmk : marketMatch (pyLower (pyStrip t)).data with
  | some g =>
    simp only [hmk] at h
    exact absurd h (by decide)
  | none =>
  simp only [hmk] at h ⊢
  cases hsg : strategyMatch (pyLower (pyStrip t)).data with
  | some g =>
    simp only [hsg] at h
    exact absurd h (by decide)
  | none =>
  simp only [hsg] at h ⊢
  cases hpr : priceMatch (pyLower (pyStrip t)).data with
  | some g =>
    simp only [hpr] at h
    exact absurd h (by decide)
  | none =>
  simp only [hpr] at h ⊢
  cases hal : alertsMatch (pyLower (pyStrip t)).data with
  | some g =>
    simp only [hal] at h
    exact absurd h (by decide)
  | none =>
  simp only [hal] at h ⊢
  cases hpc : firstPrefixCmd (pyLower (pyStrip t)) with
  | some cmd => simp only [hpc]
  | none =>
    simp only [hpc] at h
    exact absurd h (by decide)

def matchesNoPattern (n : String) : Bool :=
  (tradeMatch n.data).isNone && (marketMatch n.data).isNone &&
  (strategyMatch n.data).isNone && (priceMatch n.data).isNone &&
  (alertsMatch n.data).isNone && (firstPrefixCmd n).isNone

theorem parse_command_unknown (t : String)
    (h : matchesNoPattern (pyLower (pyStrip t)) = true) :
    parse_command t = ("unknown", Params.strParam (pyLower (pyStrip t))) := by
  unfold matchesNoPattern at h
  simp only [Bool.and_eq_true, Option.isNone_iff_eq_none] at h
  obtain ⟨⟨⟨⟨⟨h1, h2⟩, h3⟩, h4⟩, h5⟩, h6⟩ := h
  unfold parse_command
  dsimp only
  rw [h1]; dsimp only
  rw [h2]; dsimp only
  rw [h3]; dsimp only
  rw [h4]; dsimp only
  rw [h5]; dsimp only
  rw [h6]

theorem dispatchCmd_ctl (tick : Nat) (st : TradingChatSystem) (cmd : String)
    (params : Params) (input : String) :
    CtlEq st (dispatchCmd tick st cmd params input).1 ∨
    (cmd = "start" ∧
      (dispatchCmd tick st cmd params input).1 = (start_auto_trading st).1) ∨
    (dispatchCmd tick st cmd params input).1 = (stop_auto_trading st).1 := by
  unfold dispatchCmd exit_bot
  by_cases h1 : cmd = "help"
  · rw [if_pos h1]
    exact Or.inl ⟨rfl, rfl, rfl⟩
  · rw [if_neg h1]
    by_cases h2 : cmd = "trade"
    · rw [if_pos h2]
      exact Or.inl (handle_trade_frame _ _ _ _).2.1
    · rw [if_neg h2]
      by_cases h3 : cmd = "balance"
      · rw [if_pos h3]
        exact Or.inl ⟨rfl, rfl, rfl⟩
      · rw [if_neg h3]
        by_cases h4 : cmd = "market"
        · rw [if_pos h4]
          exact Or.inl ⟨rfl, rfl, rfl⟩
        · rw [if_neg h4]
          by_cases h5 : cmd = "history"
          · rw [if_pos h5]
            exact Or.inl ⟨rfl, rfl, rfl⟩
          · rw [if_neg h5]
            by_cases h6 : cmd = "strategy"
            · rw [if_pos h6]
              exact Or.inl (set_strategy_frame _ _).2.1
            · rw [if_neg h6]
              by_cases h7 : cmd = "price"
              · rw [if_pos h7]
                exact Or.inl ⟨rfl, rfl, rfl⟩
              · rw [if_neg h7]
                by_cases h8 : cmd = "alerts"
                · rw [if_pos h8]
                  exact Or.inl (manage_alerts_frame _ _ _ _).2.1
                · rw [if_neg h8]
                  by_cases h9 : cmd = "portfolio"
                  · rw [if_pos h9]
                    exact Or.inl ⟨rfl, rfl, rfl⟩
                  · rw [if_neg h9]
                    by_cases h10 : cmd = "tokens"
                    · rw [if_pos h10]
                      exact Or.inl ⟨rfl, rfl, rfl⟩
                    · rw [if_neg h10]
                      by_cases h11 : cmd = "exit"
                      · rw [if_pos h11]
                        exact Or.inr (Or.inr rfl)
                      · rw [if_neg h11]
                        by_cases h12 : cmd = "settings"
                        · rw [if_pos h12]
                          exact Or.inl (manage_settings_frame _ _).2.1
                        · rw [if_neg h12]
                          by_cases h13 : cmd = "start"
                          · rw [if_pos h13]
                            exact Or.inr (Or.inl ⟨h13, rfl⟩)
                          · rw [if_neg h13]
                            by_cases h14 : cmd = "stop"
                            · rw [if_pos h14]
                              exact Or.inr (Or.inr rfl)
                            · rw [if_neg h14]
                              by_cases h15 : cmd = "status"
                              · rw [if_pos h15]
                                exact Or.inl ⟨rfl, rfl, rfl⟩
                              · rw [if_neg h15]
                                exact Or.inl ⟨rfl, rfl, rfl⟩

theorem dispatch_ctl (tick : Nat) (st : TradingChatSystem) (input : String) :
    CtlEq st (dispatch tick st input).1 ∨
    ((parse_command input).1 = "start" ∧
      (dispatch tick st input).1 = (start_auto_trading st).1) ∨
    (dispatch tick st input).1 = (stop_auto_trading st).1 := by
  unfold dispatch
  exact dispatchCmd_ctl tick st (parse_command input).1 (parse_command input).2 input

/-! ### The balance nonnegativity invariant -/

/-- All ledger entries are nonnegative. -/
def BalancesNonneg (bal : List (String × ℚ)) : Prop := ∀ p ∈ bal, 0 ≤ p.2

theorem balGet_nonneg {bal : List (String × ℚ)} (h : BalancesNonneg bal)
    (k : String) : 0 ≤ balGet bal k := by
  unfold balGet
  cases hb : lookupA bal k with
  | none => simp
  | some v => simpa using h _ (lookupA_mem _ _ _ hb)

theorem lookupA_eq_balGet {bal : List (String × ℚ)} {k : String} {v : ℚ}
    (h : lookupA bal k = some v) : balGet bal k = v := by
  simp [balGet, h]

/-- Every price in the initial market snapshot is positive. -/
theorem initMarket_price_pos (p : String) (e : MarketEntry)
    (h : lookupA initMarketData p = some e) : 0 < e.price := by
  have hmem := lookupA_mem _ _ _ h
  simp only [initMarketData, List.mem_cons, List.not_mem_nil, or_false,
    Prod.mk.injEq] at hmem
  rcases hmem with ⟨_, rfl⟩ | ⟨_, rfl⟩ | ⟨_, rfl⟩ | ⟨_, rfl⟩ | ⟨_, rfl⟩ <;> norm_num

/-- The price used by `execute_trade` is positive on the initial snapshot. -/
theorem trade_price_pos (fr toT : String) :
    0 < trade_price initMarketData fr toT := by
  unfold trade_price
  cases h1 : lookupA initMarketData (fr ++ "_" ++ toT) with
  | some e => simp only [h1]; exact initMarket_price_pos _ _ h1
  | none =>
    simp only [h1]
    cases h2 : lookupA initMarketData (toT ++ "_" ++ fr) with
    | some e => simp only [h2]; exact one_div_pos.mpr (initMarket_price_pos _ _ h2)
    | none => simp only [h2]; norm_num

/-- `execute_trade` keeps all balances nonnegative when the amount is
nonnegative and covered by the source balance. -/
theorem execute_trade_nonneg (tick : Nat) (st : TradingChatSystem)
    (fr toT : String) (amount : ℚ) (reason : String)
    (st' : TradingChatSystem) (r : TradeRecord)
    (hb : BalancesNonneg st.balance)
    (hm : st.market_data = initMarketData)
    (ha : 0 ≤ amount)
    (hle : amount ≤ balGet st.balance fr)
    (h : execute_trade tick st fr toT amount reason = some (st', r)) :
    BalancesNonneg st'.balance := by
  unfold execute_trade at h
  cases hbf : lookupA st.balance fr with
  | none => rw [hbf] at h; simp at h
  | some bf =>
    rw [hbf] at h
    simp only [Option.some.injEq, Prod.mk.injEq] at h
    obtain ⟨hst, _⟩ := h
    subst hst
    dsimp only
    have hprice : 0 < trade_price st.market_data fr toT := by
      rw [hm]; exact trade_price_pos _ _
    have hbfval : balGet st.balance fr = bf := lookupA_eq_balGet hbf
    have hbal1 : BalancesNonneg (updPut st.balance fr (bf - amount)) := by
      intro q hq
      rcases mem_updPut _ _ _ q hq with h2 | h2
      · rw [h2]; rw [hbfval] at hle; linarith
      · exact hb _ h2
    intro p hp
    rcases mem_updPut _ _ _ p hp with h2 | h2
    · rw [h2]
      have h3 : 0 ≤ balGet (updPut st.balance fr (bf - amount)) toT :=
        balGet_nonneg hbal1 _
      have h4 : 0 ≤ amount * trade_price st.market_data fr toT :=
        mul_nonneg ha hprice.le
      linarith
    · exact hbal1 _ h2

/-- Sizing bound shared by the strategies: `min C (b * rf)` is nonnegative
and at most `b` when the risk factor lies in `[0, 1]`. -/
theorem min_risk_bound (C b rf : ℚ) (hC : 0 ≤ C) (hb : 0 ≤ b)
    (h0 : 0 ≤ rf) (h1 : rf ≤ 1) :
    0 ≤ min C (b * rf) ∧ min C (b * rf) ≤ b := by
  constructor
  · exact le_min hC (mul_nonneg hb h0)
  · calc min C (b * rf) ≤ b * rf := min_le_right _ _
      _ ≤ b * 1 := mul_le_mul_of_nonneg_left h1 hb
      _ = b := mul_one b

/-- Any strategy decision under the default configuration proposes a
nonnegative amount covered by the source balance. -/
theorem decision_bound (st : TradingChatSystem) (fr toT : String) (u : ℚ)
    (f t : String) (a : ℚ)
    (hb : BalancesNonneg st.balance) (hc : st.config = defaultConfig)
    (hu : 0 ≤ u)
    (h : generate_trade_decision st fr toT u = some (f, t, a)) :
    0 ≤ a ∧ a ≤ balGet st.balance f := by
  have hrf0 : 0 ≤ st.config.risk_factor := by rw [hc]; norm_num [defaultConfig]
  have hrf1 : st.config.risk_factor ≤ 1 := by rw [hc]; norm_num [defaultConfig]
  have hdef : 0 ≤ st.config.default_trade_amount := by rw [hc]; norm_num [defaultConfig]
  unfold generate_trade_decision at h
  cases hs : st.active_strategy with
  | none => rw [hs] at h; simp at h
  | some sname =>
    rw [hs] at h
    dsimp only at h
    by_cases h1 : sname = "trend"
    · rw [if_pos h1] at h
      unfold trend_following_strategy at h
      cases hm : lookupA st.market_data "USDC_WETH" with
      | none => rw [hm] at h; simp at h
      | some d =>
        rw [hm] at h
        dsimp only at h
        by_cases hgt : d.change24h > 0.02
        · rw [if_pos hgt] at h
          simp only [Option.some.injEq, Prod.mk.injEq] at h
          obtain ⟨hf, _, ha⟩ := h
          subst hf; subst ha
          exact min_risk_bound _ _ _ hdef (balGet_nonneg hb _) hrf0 hrf1
        · rw [if_neg hgt] at h
          by_cases hlt : d.change24h < -0.01
          · rw [if_pos hlt] at h
            simp only [Option.some.injEq, Prod.mk.injEq] at h
            obtain ⟨hf, _, ha⟩ := h
            subst hf; subst ha
            exact min_risk_bound _ _ _ (by norm_num) (balGet_nonneg hb _) hrf0 hrf1
          · rw [if_neg hlt] at h; simp at h
    · rw [if_neg h1] at h
      by_cases h2 : sname = "meanreversion"
      · rw [if_pos h2] at h
        unfold mean_reversion_strategy at h
        cases hm : lookupA st.market_data "USDC_WETH" with
        | none => rw [hm] at h; simp at h
        | some d =>
          rw [hm] at h
          dsimp only at h
          by_cases hgt : d.price < (d.high24h + d.low24h) / 2 * 0.98
          · rw [if_pos hgt] at h
            simp only [Option.some.injEq, Prod.mk.injEq] at h
            obtain ⟨hf, _, ha⟩ := h
            subst hf; subst ha
            exact min_risk_bound _ _ _ hdef (balGet_nonneg hb _) hrf0 hrf1
          · rw [if_neg hgt] at h
            by_cases hlt : d.price > (d.high24h + d.low24h) / 2 * 1.02
            · rw [if_pos hlt] at h
              simp only [Option.some.injEq, Prod.mk.injEq] at h
              obtain ⟨hf, _, ha⟩ := h
              subst hf; subst ha
              exact min_risk_bound _ _ _ (by norm_num) (balGet_nonneg hb _) hrf0 hrf1
            · rw [if_neg hlt] at h; simp at h
      · rw [if_neg h2] at h
        by_cases h3 : sname = "random"
        · rw [if_pos h3] at h
          unfold random_strategy at h
          rw [if_neg (by decide : ¬ tokenKeys.length < 2)] at h
          dsimp only at h
          by_cases hpos : balGet st.balance fr > 0
          · rw [if_pos hpos] at h
            simp only [Option.some.injEq, Prod.mk.injEq] at h
            obtain ⟨hf, _, ha⟩ := h
            subst hf; subst ha
            exact min_risk_bound _ _ _ hu (balGet_nonneg hb _) hrf0 hrf1
          · rw [if_neg hpos] at h; simp at h
        · rw [if_neg h3] at h; simp at h

/-- The reachable-state invariant behind claim C4: all balances are
nonnegative, and the configuration and market snapshot never change
(`parse_command` gives `settings` no parameter, and nothing else writes
them). -/
def Inv (st : TradingChatSystem) : Prop :=
  BalancesNonneg st.balance ∧ st.config = defaultConfig ∧
  st.market_data = initMarketData

theorem inv_of_frame {st st' : TradingChatSystem} (h : Inv st)
    (hb : st'.balance = st.balance) (hc : st'.config = st.config)
    (hm : st'.market_data = st.market_data) : Inv st' := by
  refine ⟨?_, ?_, ?_⟩
  · rw [hb]; exact h.1
  · rw [hc]; exact h.2.1
  · rw [hm]; exact h.2.2

theorem initSys_inv : Inv initSys := by
  refine ⟨?_, rfl, rfl⟩
  intro p hp
  simp only [initSys, initialBalance, List.mem_cons, List.not_mem_nil,
    or_false] at hp
  rcases hp with rfl | rfl | rfl | rfl <;> norm_num

theorem handle_trade_inv (tick : Nat) (st : TradingChatSystem) (uid : String)
    (params : Params) (h : Inv st) : Inv (handle_trade tick st uid params).1 := by
  unfold handle_trade
  cases hg : getTriple params with
  | none => simpa using h
  | some tr =>
    obtain ⟨f0, t0, a0⟩ := tr
    dsimp only
    by_cases hf : (!tokenKeys.contains (pyUpper f0)) = true
    · rw [if_pos hf]; exact h
    · rw [if_neg hf]
      by_cases ht : (!tokenKeys.contains (pyUpper t0)) = true
      · rw [if_pos ht]; exact h
      · rw [if_neg ht]
        cases hp : parseFloat a0 with
        | none => simpa using h
        | some amount =>
          dsimp only
          by_cases hsm : amount < st.config.min_trade_amount
          · rw [if_pos hsm]; exact h
          · rw [if_neg hsm]
            by_cases hlg : amount > st.config.max_trade_amount
            · rw [if_pos hlg]; exact h
            · rw [if_neg hlg]
              by_cases hins : ((lookupA st.balance (pyUpper f0)).isNone ||
                  decide (balGet st.balance (pyUpper f0) < amount)) = true
              · rw [if_pos hins]; exact h
              · rw [if_neg hins]
                cases hex : execute_trade tick st (pyUpper f0) (pyUpper t0) amount
                    ("User " ++ uid ++ " initiated trade") with
                | none => simpa using h
                | some p =>
                  obtain ⟨st', trec⟩ := p
                  dsimp only
                  simp only [Bool.or_eq_true, not_or, Option.isNone_iff_eq_none,
                    decide_eq_true_eq] at hins
                  obtain ⟨-, hlt⟩ := hins
                  have hle : amount ≤ balGet st.balance (pyUpper f0) :=
                    le_of_not_lt hlt
                  have hmin : (10 : ℚ) ≤ amount := by
                    have := le_of_not_lt hsm
                    rw [h.2.1] at this
                    simpa [defaultConfig] using this
                  have hfr := execute_trade_frame _ _ _ _ _ _ _ _ hex
                  refine ⟨?_, ?_, ?_⟩
                  · exact execute_trade_nonneg _ _ _ _ _ _ _ _ h.1 h.2.2
                      (by linarith) hle hex
                  · rw [hfr.2.2.2.1]; exact h.2.1
                  · rw [hfr.2.2.2.2]; exact h.2.2

theorem bg_step_inv (tick : Nat) (st : TradingChatSystem) (fr toT : String)
    (u : ℚ) (h : Inv st) (hu : 0 ≤ u) :
    Inv (bg_trade_step tick st fr toT u) := by
  unfold bg_trade_step
  cases hd : generate_trade_decision st fr toT u with
  | none => simpa using h
  | some d =>
    obtain ⟨f, t, a⟩ := d
    dsimp only
    cases he : execute_trade tick st f t a "Auto-trade" with
    | none => simpa using h
    | some p =>
      obtain ⟨st', r⟩ := p
      dsimp only
      have hb := decision_bound st fr toT u f t a h.1 h.2.1 hu hd
      have hfr := execute_trade_frame _ _ _ _ _ _ _ _ he
      refine ⟨?_, ?_, ?_⟩
      · exact execute_trade_nonneg _ _ _ _ _ _ _ _ h.1 h.2.2 hb.1 hb.2 he
      · rw [hfr.2.2.2.1]; exact h.2.1
      · rw [hfr.2.2.2.2]; exact h.2.2

theorem start_frame (st : TradingChatSystem) :
    (start_auto_trading st).1.balance = st.balance ∧
    (start_auto_trading st).1.trade_history = st.trade_history ∧
    (start_auto_trading st).1.active_strategy = st.active_strategy ∧
    (start_auto_trading st).1.user_state = st.user_state ∧
    (start_auto_trading st).1.config = st.config ∧
    (start_auto_trading st).1.market_data = st.market_data := by
  unfold start_auto_trading
  repeat' split
  all_goals exact ⟨rfl, rfl, rfl, rfl, rfl, rfl⟩

theorem stop_frame (st : TradingChatSystem) :
    (stop_auto_trading st).1.balance = st.balance ∧
    (stop_auto_trading st).1.trade_history = st.trade_history ∧
    (stop_auto_trading st).1.active_strategy = st.active_strategy ∧
    (stop_auto_trading st).1.user_state = st.user_state ∧
    (stop_auto_trading st).1.config = st.config ∧
    (stop_auto_trading st).1.market_data = st.market_data := by
  unfold stop_auto_trading
  repeat' split
  all_goals exact ⟨rfl, rfl, rfl, rfl, rfl, rfl⟩

theorem dispatchCmd_inv (tick : Nat) (st : TradingChatSystem) (cmd : String)
    (params : Params) (input : String) (h : Inv st)
    (hset : cmd = "settings" → params = Params.noParams) :
    Inv (dispatchCmd tick st cmd params input).1 := by
  unfold dispatchCmd exit_bot
  by_cases h1 : cmd = "help"
  · rw [if_pos h1]
    exact h
  · rw [if_neg h1]
    by_cases h2 : cmd = "trade"
    · rw [if_pos h2]
      exact handle_trade_inv _ _ _ _ h
    · rw [if_neg h2]
      by_cases h3 : cmd = "balance"
      · rw [if_pos h3]
        exact h
      · rw [if_neg h3]
        by_cases h4 : cmd = "market"
        · rw [if_pos h4]
          exact h
        · rw [if_neg h4]
          by_cases h5 : cmd = "history"
          · rw [if_pos h5]
            exact h
          · rw [if_neg h5]
            by_cases h6 : cmd = "strategy"
            · rw [if_pos h6]
              obtain ⟨hb, -, -, -, hc, hm⟩ := set_strategy_frame st params
              exact inv_of_frame h hb hc hm
            · rw [if_neg h6]
              by_cases h7 : cmd = "price"
              · rw [if_pos h7]
                exact h
              · rw [if_neg h7]
                by_cases h8 : cmd = "alerts"
                · rw [if_pos h8]
                  obtain ⟨hb, -, -, -, hc, hm⟩ := manage_alerts_frame (toString tick) st "user_001" params
                  exact inv_of_frame h hb hc hm
                · rw [if_neg h8]
                  by_cases h9 : cmd = "portfolio"
                  · rw [if_pos h9]
                    exact h
                  · rw [if_neg h9]
                    by_cases h10 : cmd = "tokens"
                    · rw [if_pos h10]
                      exact h
                    · rw [if_neg h10]
                      by_cases h11 : cmd = "exit"
                      · rw [if_pos h11]
                        obtain ⟨hb, -, -, -, hc, hm⟩ := stop_frame st
                        exact inv_of_frame h hb hc hm
                      · rw [if_neg h11]
                        by_cases h12 : cmd = "settings"
                        · rw [if_pos h12]
                          rw [hset h12]
                          exact h
                        · rw [if_neg h12]
                          by_cases h13 : cmd = "start"
                          · rw [if_pos h13]
                            obtain ⟨hb, -, -, -, hc, hm⟩ := start_frame st
                            exact inv_of_frame h hb hc hm
                          · rw [if_neg h13]
                            by_cases h14 : cmd = "stop"
                            · rw [if_pos h14]
                              obtain ⟨hb, -, -, -, hc, hm⟩ := stop_frame st
                              exact inv_of_frame h hb hc hm
                            · rw [if_neg h14]
                              by_cases h15 : cmd = "status"
                              · rw [if_pos h15]
                                exact h
                              · rw [if_neg h15]
                                exact h

theorem dispatch_inv (tick : Nat) (st : TradingChatSystem) (input : String)
    (h : Inv st) : Inv (dispatch tick st input).1 := by
  unfold dispatch
  exact dispatchCmd_inv tick st (parse_command input).1 (parse_command input).2
    input h (parse_cmd_settings input)

theorem step_inv {s s' : TradingChatSystem} {l : Label} (h : Inv s)
    (hs : Step s l s') : Inv s' := by
  cases hs
  case user tick input => exact dispatch_inv tick s input h
  case bgTrade tick fr toT u hf ht hne hu1 hu2 ha hss hl =>
    exact bg_step_inv tick s fr toT u h (by linarith)
  case alertTick =>
    obtain ⟨hb, -, -, -, hc, hm⟩ := alert_check_frame s
    exact inv_of_frame h hb hc hm
  case loopExit hl hcond => exact inv_of_frame h rfl rfl rfl

theorem reachable_inv {s : TradingChatSystem} (h : Reachable s) : Inv s := by
  induction h with
  | init => exact initSys_inv
  | step hr hs ih => exact step_inv ih hs

/-! ### Scheduler control lemmas -/

/-- `stop_auto_trading` always leaves the flag down. -/
theorem stop_inactive (st : TradingChatSystem) :
    (stop_auto_trading st).1.auto_trading_active = false := by
  unfold stop_auto_trading
  by_cases h : st.auto_trading_active = true
  · rw [if_neg (by simp [h])]
  · rw [if_pos (by simpa using h)]
    simpa using h

/-- Dispatching a `stop` command runs `stop_auto_trading`. -/
theorem dispatch_stop (tick : Nat) (st : TradingChatSystem) (input : String)
    (h : (parse_command input).1 = "stop") :
    (dispatch tick st input).1 = (stop_auto_trading st).1 := by
  unfold dispatch dispatchCmd
  dsimp only
  rw [h]
  rw [if_neg (by decide), if_neg (by decide), if_neg (by decide),
      if_neg (by decide), if_neg (by decide), if_neg (by decide),
      if_neg (by decide), if_neg (by decide), if_neg (by decide),
      if_neg (by decide), if_neg (by decide), if_neg (by decide),
      if_neg (by decide), if_pos rfl]

/-- A background trade step only fires while the flag is up. -/
theorem step_bg_active {s s' : TradingChatSystem} {l : Label}
    (hs : Step s l s') (hb : isBgTradeLabel l = true) :
    s.auto_trading_active = true := by
  cases hs <;> simp_all [isBgTradeLabel]

/-- No step other than a `start` command can raise the auto-trading flag. -/
theorem step_keeps_inactive {s s' : TradingChatSystem} {l : Label}
    (hs : Step s l s') (hns : isStartLabel l = false)
    (ha : s.auto_trading_active = false) : s'.auto_trading_active = false := by
  cases hs
  case user tick input =>
    rcases dispatch_ctl tick s input with hc | ⟨hcmd, -⟩ | hstop
    · rw [hc.1]; exact ha
    · exfalso
      simp only [isStartLabel, hcmd] at hns
      exact absurd hns (by simp)
    · rw [hstop]; exact stop_inactive s
  case bgTrade => exact ((bg_trade_frame _ _ _ _ _).2.1.1).trans ha
  case alertTick => exact ((alert_check_frame _).2.1.1).trans ha
  case loopExit => exact ha

/-- Once the flag is down, a run without `start` commands contains no
background trade step. -/
theorem trace_no_bg {s s' : TradingChatSystem} {ls : List Label}
    (hT : Trace s ls s') (ha : s.auto_trading_active = false)
    (hns : ∀ l ∈ ls, isStartLabel l = false) :
    ∀ l ∈ ls, isBgTradeLabel l = false := by
  induction hT with
  | nil => intro l hl; exact absurd hl (List.not_mem_nil l)
  | cons hstep htail ih =>
    rename_i s0 s1 s2 l0 ls0
    intro l hl
    rcases List.mem_cons.mp hl with rfl | hl2
    · cases hbb : isBgTradeLabel l with
      | false => rfl
      | true =>
        rw [step_bg_active hstep hbb] at ha
        exact absurd ha (by simp)
    · have ha1 : s1.auto_trading_active = false :=
        step_keeps_inactive hstep (hns l0 (List.mem_cons_self _ _)) ha
      exact ih ha1 (fun x hx => hns x (List.mem_cons_of_mem _ hx)) l hl2

/-- A live loop implies the flag is up or the stop event is set. -/
def LInv (st : TradingChatSystem) : Prop :=
  0 < st.live_loops →
    st.auto_trading_active = true ∨ st.stop_event_set = true

theorem linv_of_ctl {st st' : TradingChatSystem} (h : LInv st)
    (hc : CtlEq st st') : LInv st' := by
  intro hl
  rw [hc.1, hc.2.1]
  exact h (hc.2.2 ▸ hl)

theorem reachable_linv {s : TradingChatSystem} (h : Reachable s) : LInv s := by
  induction h with
  | init => intro hl; exact absurd hl (by decide)
  | step hr hs ih =>
    rename_i s0 s1 l
    cases hs
    case user tick input =>
      rcases dispatch_ctl tick s0 input with hc | ⟨-, hstart⟩ | hstop
      · exact linv_of_ctl ih hc
      · rw [hstart]
        unfold start_auto_trading
        by_cases h1 : strFalsyOpt s0.active_strategy = true
        · rw [if_pos h1]; exact ih
        · rw [if_neg h1]
          by_cases h2 : s0.auto_trading_active = true
          · rw [if_pos h2]; exact ih
          · rw [if_neg h2]
            intro _
            exact Or.inl rfl
      · rw [hstop]
        unfold stop_auto_trading
        by_cases h2 : s0.auto_trading_active = true
        · rw [if_neg (by simp [h2])]
          intro _
          exact Or.inr rfl
        · rw [if_pos (by simpa using h2)]; exact ih
    case bgTrade => exact linv_of_ctl ih (bg_trade_frame _ _ _ _ _).2.1
    case alertTick => exact linv_of_ctl ih (alert_check_frame _).2.1
    case loopExit =>
      intro hpos
      have h0 : 0 < s0.live_loops := by
        simp only at hpos
        omega
      exact ih h0

/-- Invariant of start-disciplined runs: never more than one live loop, and
while the flag is up there is exactly one live loop and the stop event is
clear. -/
def SInv (st : TradingChatSystem) : Prop :=
  st.live_loops ≤ 1 ∧
  (st.auto_trading_active = true →
    st.live_loops = 1 ∧ st.stop_event_set = false)

theorem sinv_of_ctl {st st' : TradingChatSystem} (h : SInv st)
    (hc : CtlEq st st') : SInv st' := by
  constructor
  · rw [hc.2.2]; exact h.1
  · intro ha
    rw [hc.2.2, hc.2.1]
    exact h.2 (hc.1 ▸ ha)

theorem reachsafe_sinv {s : TradingChatSystem} (h : ReachSafe s) : SInv s := by
  induction h with
  | init => exact ⟨by decide, by intro hc; exact absurd hc (by decide)⟩
  | step hr hs hguard ih =>
    rename_i s0 s1 l
    cases hs
    case user tick input =>
      rcases dispatch_ctl tick s0 input with hc | ⟨hcmd, hstart⟩ | hstop
      · exact sinv_of_ctl ih hc
      · rw [hstart]
        unfold start_auto_trading
        by_cases h1 : strFalsyOpt s0.active_strategy = true
        · rw [if_pos h1]; exact ih
        · rw [if_neg h1]
          by_cases h2 : s0.auto_trading_active = true
          · rw [if_pos h2]; exact ih
          · rw [if_neg h2]
            have hlab : isStartLabel (Label.user tick input) = true := by
              simp [isStartLabel, hcmd]
            rcases hguard hlab with hact | hzero
            · exact absurd hact h2
            · refine ⟨?_, ?_⟩
              · simp [hzero]
              · intro _
                simp [hzero]
      · rw [hstop]
        unfold stop_auto_trading
        by_cases h2 : s0.auto_trading_active = true
        · rw [if_neg (by simp [h2])]
          refine ⟨ih.1, ?_⟩
          intro hc
          exact absurd hc (by simp)
        · rw [if_pos (by simpa using h2)]; exact ih
    case bgTrade => exact sinv_of_ctl ih (bg_trade_frame _ _ _ _ _).2.1
    case alertTick => exact sinv_of_ctl ih (alert_check_frame _).2.1
    case loopExit hl hcond =>
      by_cases ha : s0.auto_trading_active = true
      · exfalso
        obtain ⟨-, hsf⟩ := ih.2 ha
        rcases hcond with hc | hc
        · rw [ha] at hc; exact absurd hc (by simp)
        · rw [hsf] at hc; exact absurd hc (by simp)
      · refine ⟨?_, ?_⟩
        · have h1 := ih.1
          simp only
          omega
        · intro hc
          exact absurd (show s0.auto_trading_active = true from hc) ha

/-! ### Alert-scan characterisation -/

/-- An alert that the scan would fire on: untriggered with its price target
reached. -/
def Eligible (md : List (String × MarketEntry)) (a : Alert) : Prop :=
  a.triggered = false ∧ priceReached md a = true

theorem eligible_iff (md : List (String × MarketEntry)) (a : Alert) :
    Eligible md a ↔ (!a.triggered && priceReached md a) = true := by
  unfold Eligible
  cases a.triggered <;> cases priceReached md a <;> simp

theorem checkAlertsList_none (md : List (String × MarketEntry))
    (as : List Alert) (h : checkAlertsList md as = none) :
    ∀ a ∈ as, ¬ Eligible md a := by
  induction as with
  | nil => intro a ha; exact absurd ha (List.not_mem_nil a)
  | cons a0 rest ih =>
    unfold checkAlertsList at h
    by_cases hc : (!a0.triggered && priceReached md a0) = true
    · rw [if_pos hc] at h; simp at h
    · rw [if_neg hc] at h
      intro a ha
      rcases List.mem_cons.mp ha with rfl | ha2
      · exact fun he => hc ((eligible_iff md a).mp he)
      · cases hrec : checkAlertsList md rest with
        | none => exact ih hrec a ha2
        | some p => rw [hrec] at h; simp at h

theorem checkAlertsList_some (md : List (String × MarketEntry))
    (as : List Alert) (a : Alert) (as' : List Alert)
    (h : checkAlertsList md as = some (a, as')) :
    ∃ pre post, as = pre ++ a :: post ∧
      as' = pre ++ setTriggered a :: post ∧ Eligible md a ∧
      ∀ b ∈ pre, ¬ Eligible md b := by
  induction as generalizing as' with
  | nil => simp [checkAlertsList] at h
  | cons a0 rest ih =>
    unfold checkAlertsList at h
    by_cases hc : (!a0.triggered && priceReached md a0) = true
    · rw [if_pos hc] at h
      simp only [Option.some.injEq, Prod.mk.injEq] at h
      obtain ⟨rfl, rfl⟩ := h
      exact ⟨[], rest, rfl, rfl, (eligible_iff md a0).mpr hc,
        fun b hb => absurd hb (List.not_mem_nil b)⟩
    · rw [if_neg hc] at h
      cases hrec : checkAlertsList md rest with
      | none => rw [hrec] at h; simp at h
      | some p =>
        obtain ⟨r, rest'⟩ := p
        rw [hrec] at h
        simp only [Option.map_some', Option.some.injEq, Prod.mk.injEq] at h
        obtain ⟨rfl, rfl⟩ := h
        obtain ⟨pre, post, h1, h2, h3, h4⟩ := ih rest' hrec
        refine ⟨a0 :: pre, post, by simp [h1], by simp [h2], h3, ?_⟩
        intro b hb
        rcases List.mem_cons.mp hb with rfl | hb2
        · exact fun he => hc ((eligible_iff md b).mp he)
        · exact h4 b hb2

theorem check_alerts_some (md : List (String × MarketEntry))
    (us : List (String × List Alert)) (u : String) (a : Alert)
    (us' : List (String × List Alert))
    (h : check_alerts md us = some ((u, a), us')) :
    ∃ us₁ pre post us₂,
      us = us₁ ++ (u, pre ++ a :: post) :: us₂ ∧
      us' = us₁ ++ (u, pre ++ setTriggered a :: post) :: us₂ ∧
      Eligible md a ∧
      (∀ p ∈ us₁, ∀ b ∈ p.2, ¬ Eligible md b) ∧
      (∀ b ∈ pre, ¬ Eligible md b) := by
  induction us generalizing us' with
  | nil => simp [check_alerts] at h
  | cons p0 rest ih =>
    obtain ⟨u0, as0⟩ := p0
    unfold check_alerts at h
    cases hl : checkAlertsList md as0 with
    | some q =>
      obtain ⟨a0, as0'⟩ := q
      rw [hl] at h
      simp only [Option.some.injEq, Prod.mk.injEq] at h
      obtain ⟨⟨rfl, rfl⟩, rfl⟩ := h
      obtain ⟨pre, post, h1, h2, h3, h4⟩ := checkAlertsList_some md as0 a0 as0' hl
      exact ⟨[], pre, post, rest, by simp [← h1], by simp [← h2], h3,
        fun p hp => absurd hp (List.not_mem_nil p), h4⟩
    | none =>
      rw [hl] at h
      cases hrec : check_alerts md rest with
      | none => rw [hrec] at h; simp at h
      | some q =>
        obtain ⟨⟨u1, a1⟩, rest'⟩ := q
        rw [hrec] at h
        simp only [Option.map_some', Option.some.injEq, Prod.mk.injEq] at h
        obtain ⟨⟨rfl, rfl⟩, rfl⟩ := h
        obtain ⟨us₁, pre, post, us₂, h1, h2, h3, h4, h5⟩ := ih rest' hrec
        refine ⟨(u0, as0) :: us₁, pre, post, us₂, by simp [h1], by simp [h2], h3, ?_, h5⟩
        intro p hp
        rcases List.mem_cons.mp hp with rfl | hp2
        · exact checkAlertsList_none md as0 hl
        · exact h4 p hp2

/-! ### Concrete runs used by witnesses and counterexamples -/

/-- State after the command `strategy trend` on a fresh system. -/
def stStrat : TradingChatSystem := (dispatch 0 initSys "strategy trend").1

/-- ... then `start`: one loop spawned. -/
def stRun : TradingChatSystem := (dispatch 1 stStrat "start").1

/-- ... then `stop`: flag down, stop event set, loop not yet exited. -/
def stStopped : TradingChatSystem := (dispatch 2 stRun "stop").1

/-- ... then `start` again before the stopped loop polls: a second loop. -/
def stRestart : TradingChatSystem := (dispatch 3 stStopped "start").1

theorem reach_stRun : Reachable stRun :=
  Reachable.step
    (Reachable.step Reachable.init (Step.user 0 initSys "strategy trend"))
    (Step.user 1 stStrat "start")

theorem reach_stStopped : Reachable stStopped :=
  Reachable.step reach_stRun (Step.user 2 stRun "stop")

theorem reach_stRestart : Reachable stRestart :=
  Reachable.step reach_stStopped (Step.user 3 stStopped "start")

/-- Classification of insufficient-balance replies. -/
def isInsufficientReply : Reply → Bool
  | Reply.insufficientBalance _ _ => true
  | _ => false

/-- Classification of validation-error replies, following the taxonomy of
the specification: bad token, bad amount, bad format. -/
def isValidationErrorReply : Reply → Bool
  | Reply.tradeFormatError => true
  | Reply.invalidFromToken _ => true
  | Reply.invalidToToken _ => true
  | Reply.amountTooSmall => true
  | Reply.amountTooLarge => true
  | Reply.invalidAmount => true
  | _ => false

/-! ### Claims -/

/-- C1 (counterexample): the claim omits distinctness of the two tokens from
its precondition list, yet `handle_trade` and `execute_trade` accept
`from = to`.  Trading 100 USDC to USDC satisfies every listed precondition,
and the USDC balance afterwards is unchanged (10000), not reduced by the
amount as the claim requires. -/
theorem C1_counterexample :
    tokenKeys.contains "USDC" = true ∧
    initSys.config.min_trade_amount ≤ 100 ∧
    (100 : ℚ) ≤ initSys.config.max_trade_amount ∧
    (100 : ℚ) ≤ balGet initSys.balance "USDC" ∧
    (execute_trade 0 initSys "USDC" "USDC" 100 "").map
       (fun p => balGet p.1.balance "USDC") = some 10000 ∧
    (10000 : ℚ) ≠ balGet initSys.balance "USDC" - 100 := by
  refine ⟨by decide, by decide, by decide,
    by decide, by decide,
    by decide⟩

/-- C1 (amended): for distinct known tokens, an amount within the configured
range and covered by the source balance, `execute_trade` debits the source
by exactly the amount, credits the destination by exactly amount times the
price (ordered pair, else reciprocal of the inverse pair, else 1), appends
one record, changes no other balance, and never drives a nonnegative
balance negative. -/
theorem C1_amended (tick : Nat) (st : TradingChatSystem)
    (fr toT reason : String) (amount : ℚ)
    (hfr : tokenKeys.contains fr = true)
    (hto : tokenKeys.contains toT = true)
    (hne : fr ≠ toT)
    (hcfg : st.config = defaultConfig)
    (hmkt : st.market_data = initMarketData)
    (hmin : st.config.min_trade_amount ≤ amount)
    (hmax : amount ≤ st.config.max_trade_amount)
    (hbal : amount ≤ balGet st.balance fr) :
    ∃ st' r, execute_trade tick st fr toT amount reason = some (st', r) ∧
      balGet st'.balance fr = balGet st.balance fr - amount ∧
      balGet st'.balance toT =
        balGet st.balance toT + amount * trade_price st.market_data fr toT ∧
      r.received = amount * trade_price st.market_data fr toT ∧
      st'.trade_history = st.trade_history ++ [r] ∧
      (∀ e, lookupA st.market_data (fr ++ "_" ++ toT) = some e →
        trade_price st.market_data fr toT = e.price) ∧
      (lookupA st.market_data (fr ++ "_" ++ toT) = none →
        ∀ e, lookupA st.market_data (toT ++ "_" ++ fr) = some e →
          trade_price st.market_data fr toT = 1 / e.price) ∧
      (lookupA st.market_data (fr ++ "_" ++ toT) = none →
        lookupA st.market_data (toT ++ "_" ++ fr) = none →
          trade_price st.market_data fr toT = 1) ∧
      (∀ tok, tok ≠ fr → tok ≠ toT →
        balGet st'.balance tok = balGet st.balance tok) ∧
      (∀ tok, 0 ≤ balGet st.balance tok → 0 ≤ balGet st'.balance tok) := by
  have hmin10 : (10 : ℚ) ≤ amount := by
    rw [hcfg] at hmin
    simpa [defaultConfig] using hmin
  have hpos : 0 < balGet st.balance fr :=
    lt_of_lt_of_le (by norm_num) (le_trans hmin10 hbal)
  obtain ⟨bf, hbf⟩ : ∃ bf, lookupA st.balance fr = some bf := by
    cases hb : lookupA st.balance fr with
    | none =>
      rw [balGet, hb] at hpos
      simp at hpos
    | some v => exact ⟨v, rfl⟩
  have hbfval : balGet st.balance fr = bf := lookupA_eq_balGet hbf
  have hprice : 0 < trade_price st.market_data fr toT := by
    rw [hmkt]; exact trade_price_pos _ _
  have htne : toT ≠ fr := fun hc => hne hc.symm
  unfold execute_trade
  rw [hbf]
  refine ⟨_, _, rfl, ?_, ?_, rfl, rfl, ?_, ?_, ?_, ?_, ?_⟩
  · dsimp only
    rw [balGet_updPut_ne _ _ _ _ hne, balGet_updPut_self, hbfval]
  · dsimp only
    rw [balGet_updPut_self, balGet_updPut_ne _ _ _ _ htne]
  · intro e he
    unfold trade_price
    rw [he]
  · intro hn e he
    unfold trade_price
    rw [hn, he]
  · intro hn1 hn2
    unfold trade_price
    rw [hn1, hn2]
  · intro tok h1 h2
    dsimp only
    rw [balGet_updPut_ne _ _ _ _ h2, balGet_updPut_ne _ _ _ _ h1]
  · intro tok h0
    dsimp only
    by_cases t1 : tok = fr
    · subst t1
      rw [balGet_updPut_ne _ _ _ _ hne, balGet_updPut_self]
      rw [hbfval] at hbal
      linarith
    · by_cases t2 : tok = toT
      · rw [t2, balGet_updPut_self, balGet_updPut_ne _ _ _ _ htne]
        have hr : 0 ≤ amount * trade_price st.market_data fr toT :=
          mul_nonneg (by linarith) hprice.le
        rw [t2] at h0
        linarith
      · rw [balGet_updPut_ne _ _ _ _ t2, balGet_updPut_ne _ _ _ _ t1]
        exact h0

/-- C1 (witness): the amended theorem applied to the concrete trade of 100
USDC to WETH from the initial state. -/
theorem C1_witness :
    ∃ st' r, execute_trade 0 initSys "USDC" "WETH" 100 "r" = some (st', r) ∧
      balGet st'.balance "USDC" = balGet initSys.balance "USDC" - 100 ∧
      balGet st'.balance "WETH" =
        balGet initSys.balance "WETH" +
          100 * trade_price initSys.market_data "USDC" "WETH" ∧
      r.received = 100 * trade_price initSys.market_data "USDC" "WETH" ∧
      st'.trade_history = initSys.trade_history ++ [r] ∧
      (∀ e, lookupA initSys.market_data "USDC_WETH" = some e →
        trade_price initSys.market_data "USDC" "WETH" = e.price) ∧
      (lookupA initSys.market_data "USDC_WETH" = none →
        ∀ e, lookupA initSys.market_data "WETH_USDC" = some e →
          trade_price initSys.market_data "USDC" "WETH" = 1 / e.price) ∧
      (lookupA initSys.market_data "USDC_WETH" = none →
        lookupA initSys.market_data "WETH_USDC" = none →
          trade_price initSys.market_data "USDC" "WETH" = 1) ∧
      (∀ tok, tok ≠ "USDC" → tok ≠ "WETH" →
        balGet st'.balance tok = balGet initSys.balance tok) ∧
      (∀ tok, 0 ≤ balGet initSys.balance tok → 0 ≤ balGet st'.balance tok) :=
  C1_amended 0 initSys "USDC" "WETH" "r" 100 (by decide) (by decide)
    (by decide) rfl rfl (by decide)
    (by decide) (by decide)

/-- C2 (counterexample): `handle_trade` checks the amount range before the
balance, so an amount above both the maximum and the source balance fails
with the amount-too-large validation error, not an insufficient-balance
error; the state is unchanged either way. -/
theorem C2_counterexample :
    balGet initSys.balance "WETH" < 20000 ∧
    dispatch 0 initSys "trade weth to usdc 20000" =
      (initSys, Reply.amountTooLarge) ∧
    isInsufficientReply (dispatch 0 initSys "trade weth to usdc 20000").2 = false := by
  refine ⟨by decide, by decide,
    by decide⟩

/-- C2 (amended): when both tokens are valid and the amount lies inside the
configured range, an amount strictly above the source balance makes the
trade handler fail with the insufficient-balance error and leave the whole
state untouched. -/
theorem C2_amended (tick : Nat) (st : TradingChatSystem)
    (uid f0 t0 a0 : String) (q : ℚ)
    (hf : tokenKeys.contains (pyUpper f0) = true)
    (ht : tokenKeys.contains (pyUpper t0) = true)
    (hq : parseFloat a0 = some q)
    (hmin : ¬ q < st.config.min_trade_amount)
    (hmax : ¬ q > st.config.max_trade_amount)
    (hbal : balGet st.balance (pyUpper f0) < q) :
    handle_trade tick st uid (Params.tripleParam f0 t0 a0) =
      (st, Reply.insufficientBalance (pyUpper f0) (balGet st.balance (pyUpper f0))) := by
  unfold handle_trade getTriple
  dsimp only
  rw [if_neg (by rw [hf]; decide), if_neg (by rw [ht]; decide), hq]
  dsimp only
  rw [if_neg hmin, if_neg hmax, if_pos (by simp [hbal])]

/-- C2 (witness): trading 10 WETH with only 5 WETH in the ledger. -/
theorem C2_witness :
    handle_trade 0 initSys "user_001" (Params.tripleParam "weth" "usdc" "10") =
      (initSys, Reply.insufficientBalance "WETH" 5) := by
  have h := C2_amended 0 initSys "user_001" "weth" "usdc" "10" 10 (by decide)
    (by decide) (by decide) (by decide)
    (by decide) (by decide)
  exact h.trans (by decide)

/-- C3: a trade request whose numeric amount lies strictly below the
configured minimum or strictly above the configured maximum is answered
with a validation error (bad token or bad amount), and neither the ledger
nor the trade history nor anything else in the state changes. -/
theorem C3_amount_validation (tick : Nat) (st : TradingChatSystem)
    (uid f0 t0 a0 : String) (q : ℚ)
    (hq : parseFloat a0 = some q)
    (hrange : q < st.config.min_trade_amount ∨ q > st.config.max_trade_amount) :
    (handle_trade tick st uid (Params.tripleParam f0 t0 a0)).1 = st ∧
    isValidationErrorReply
      (handle_trade tick st uid (Params.tripleParam f0 t0 a0)).2 = true ∧
    (handle_trade tick st uid (Params.tripleParam f0 t0 a0)).1.trade_history =
      st.trade_history := by
  unfold handle_trade getTriple
  dsimp only
  by_cases hf : (!(tokenKeys.contains (pyUpper f0))) = true
  · rw [if_pos hf]; exact ⟨rfl, rfl, rfl⟩
  · rw [if_neg hf]
    by_cases ht : (!(tokenKeys.contains (pyUpper t0))) = true
    · rw [if_pos ht]; exact ⟨rfl, rfl, rfl⟩
    · rw [if_neg ht, hq]
      dsimp only
      by_cases h1 : q < st.config.min_trade_amount
      · rw [if_pos h1]; exact ⟨rfl, rfl, rfl⟩
      · rw [if_neg h1]
        have h2 : q > st.config.max_trade_amount := hrange.resolve_left h1
        rw [if_pos h2]
        exact ⟨rfl, rfl, rfl⟩

/-- C3 (witness): the request `trade usdc to weth 5` is below the minimum
of 10: the state is unchanged and the reply is a validation error. -/
theorem C3_witness :
    (handle_trade 0 initSys "user_001" (Params.tripleParam "usdc" "weth" "5")).1
      = initSys ∧
    isValidationErrorReply
      (handle_trade 0 initSys "user_001" (Params.tripleParam "usdc" "weth" "5")).2
      = true ∧
    (handle_trade 0 initSys "user_001"
      (Params.tripleParam "usdc" "weth" "5")).1.trade_history =
      initSys.trade_history :=
  C3_amount_validation 0 initSys "user_001" "usdc" "weth" "5" 5
    (by decide) (Or.inl (by decide))

/-- C4: every reachable state of the system (under user command dispatch,
background auto-trading iterations, alert checks and loop exits) keeps
every ledger balance nonnegative. -/
theorem C4_balances_nonneg (st : TradingChatSystem) (h : Reachable st) :
    ∀ tok, 0 ≤ balGet st.balance tok :=
  fun tok => balGet_nonneg (reachable_inv h).1 tok

/-- C4 (witness): the invariant evaluated on the concrete reachable state
after `strategy trend` and `start`. -/
theorem C4_witness : 0 ≤ balGet stRun.balance "USDC" :=
  C4_balances_nonneg stRun reach_stRun "USDC"

/-- C5 (counterexample): `parse_command` lowercases its input before
matching, so the captures of the trade pattern are lowercase, not the
claimed `(USDC, WETH, 100)`, and unknown input carries the stripped
lowercased text, not the raw text. -/
theorem C5_counterexample :
    parse_command "trade usdc to weth 100" =
      ("trade", Params.tripleParam "usdc" "weth" "100") ∧
    Params.tripleParam "usdc" "weth" "100" ≠
      Params.tripleParam "USDC" "WETH" "100" ∧
    parse_command "Hello World" = ("unknown", Params.strParam "hello world") ∧
    ("hello world" : String) ≠ "Hello World" := by
  refine ⟨by decide, by decide, by decide, by decide⟩

/-- C5 (amended): the trade example parses to the trade command with the
lowercase captures; the alerts example parses to the alerts command
carrying the single parameter string `add weth_btc 0.055`; and any text
matching no pattern and no command-name prefix parses to the unknown
command carrying the stripped, lowercased text. -/
theorem C5_amended :
    parse_command "trade usdc to weth 100" =
      ("trade", Params.tripleParam "usdc" "weth" "100") ∧
    parse_command "alerts add weth_btc 0.055" =
      ("alerts", Params.strParam "add weth_btc 0.055") ∧
    ∀ t : String, matchesNoPattern (pyLower (pyStrip t)) = true →
      parse_command t = ("unknown", Params.strParam (pyLower (pyStrip t))) :=
  ⟨by decide, by decide, parse_command_unknown⟩

/-- C5 (witness): the unknown-command clause applied to `Hello World`. -/
theorem C5_witness :
    parse_command "Hello World" =
      ("unknown", Params.strParam (pyLower (pyStrip "Hello World"))) :=
  C5_amended.2.2 "Hello World" (by decide)

/-- C6 (counterexample): starting, stopping, and immediately starting again
while the stopped loop is still asleep spawns a second loop: the state
after `strategy trend`, `start`, `stop`, `start` is reachable and has two
live auto-trading loops, refuting the claim that at most one loop is ever
live. -/
theorem C6_counterexample : Reachable stRestart ∧ stRestart.live_loops = 2 :=
  ⟨reach_stRestart, by decide⟩

/-- C6 (amended): `start_auto_trading` refuses without an active strategy;
a second start while running is a no-op reporting already-running; an
enabled start raises the flag, clears the stop event and spawns exactly one
loop; and in every run where a start is only issued while the flag is up or
after every stopped loop has exited, at most one loop is ever live. -/
theorem C6_amended :
    (∀ st : TradingChatSystem, st.active_strategy = none →
      start_auto_trading st = (st, Reply.noStrategySet)) ∧
    (∀ st : TradingChatSystem, strFalsyOpt st.active_strategy = false →
      st.auto_trading_active = true →
      start_auto_trading st = (st, Reply.alreadyRunning)) ∧
    (∀ st : TradingChatSystem, strFalsyOpt st.active_strategy = false →
      st.auto_trading_active = false →
      (start_auto_trading st).1.auto_trading_active = true ∧
      (start_auto_trading st).1.live_loops = st.live_loops + 1 ∧
      (start_auto_trading st).1.stop_event_set = false) ∧
    (∀ st : TradingChatSystem, ReachSafe st → st.live_loops ≤ 1) := by
  refine ⟨?_, ?_, ?_, fun st h => (reachsafe_sinv h).1⟩
  · intro st h
    unfold start_auto_trading
    rw [if_pos (by simp [strFalsyOpt, h])]
  · intro st h1 h2
    unfold start_auto_trading
    rw [if_neg (by simp [h1]), if_pos h2]
  · intro st h1 h2
    unfold start_auto_trading
    rw [if_neg (by simp [h1]), if_neg (by simp [h2])]
    exact ⟨rfl, rfl, rfl⟩

/-- A start-disciplined run reaching the running state. -/
theorem reachsafe_stRun : ReachSafe stRun :=
  ReachSafe.step
    (ReachSafe.step ReachSafe.init (Step.user 0 initSys "strategy trend")
      (fun h => absurd h (by decide)))
    (Step.user 1 stStrat "start")
    (fun _ => Or.inr (by decide))

/-- C6 (witness): the amended behaviours at concrete states. -/
theorem C6_witness :
    start_auto_trading initSys = (initSys, Reply.noStrategySet) ∧
    start_auto_trading stRun = (stRun, Reply.alreadyRunning) ∧
    stRun.live_loops ≤ 1 :=
  ⟨C6_amended.1 initSys rfl,
   C6_amended.2.1 stRun (by decide) (by decide),
   C6_amended.2.2.2 stRun reachsafe_stRun⟩

/-- C7: after a `stop` command, any continuation that issues no further
`start` contains no background trade step past the next poll boundary; and
a live loop can only find its exit condition satisfied with the stop event
set, so the loop terminates only through the stop signal. -/
theorem C7_stop_halts_background :
    (∀ (s s₁ s₂ : TradingChatSystem) (tick : Nat) (input : String)
       (ls : List Label),
      Reachable s → (parse_command input).1 = "stop" →
      Step s (Label.user tick input) s₁ → Trace s₁ ls s₂ →
      (∀ l ∈ ls, isStartLabel l = false) →
      ∀ l ∈ ls, isBgTradeLabel l = false) ∧
    (∀ s : TradingChatSystem, Reachable s → 0 < s.live_loops →
      s.auto_trading_active = false ∨ s.stop_event_set = true →
      s.stop_event_set = true) := by
  constructor
  · intro s s₁ s₂ tick input ls hr hstop hstep hT hns
    have hs1 : s₁.auto_trading_active = false := by
      cases hstep
      rw [dispatch_stop tick s input hstop]
      exact stop_inactive s
    exact trace_no_bg hT hs1 hns
  · intro s hr hl hcond
    rcases reachable_linv hr hl with ha | hs
    · rcases hcond with hc | hc
      · rw [ha] at hc
        exact absurd hc (by simp)
      · exact hc
    · exact hs

/-- C7 (witness): the concrete run strategy-start-stop followed by the loop
observing the stop and exiting. -/
theorem C7_witness :
    (∀ l ∈ [Label.loopExit], isBgTradeLabel l = false) ∧
    stStopped.stop_event_set = true := by
  constructor
  · exact C7_stop_halts_background.1 stRun stStopped _ 2 "stop"
      [Label.loopExit] reach_stRun (by decide) (Step.user 2 stRun "stop")
      (Trace.cons
        (Step.loopExit stStopped (by decide) (Or.inl (by decide)))
        (Trace.nil _))
      (by decide)
  · exact C7_stop_halts_background.2 stStopped reach_stStopped (by decide)
      (Or.inl (by decide))

/-- A state with the 24h change of the canonical pair at 0.025 and a zero
USDC balance. -/
def c8St : TradingChatSystem :=
  { initSys with
    balance := updPut initialBalance "USDC" 0,
    market_data := updPut initMarketData "USDC_WETH"
      ⟨0.00048, 0.025, 0.0005, 0.00046, 42500000⟩ }

/-- C8 (counterexample): with the 24h change at 0.025 and a zero USDC
balance, the trend strategy does not return nothing: it proposes a
zero-amount buy, refuting the zero-balance clause of the claim. -/
theorem C8_counterexample :
    (lookupA c8St.market_data "USDC_WETH").map MarketEntry.change24h =
      some 0.025 ∧
    balGet c8St.balance "USDC" = 0 ∧
    trend_following_strategy c8St = some ("USDC", "WETH", 0) := by
  refine ⟨by decide, by decide, by decide⟩

/-- C8 (amended): at 24h change 0.025 the trend strategy proposes the buy
with its risk-sized amount; at -0.02 the sell; at 0.0 nothing; and at a
zero source balance it still proposes a trade, of amount zero. -/
theorem C8_amended (st : TradingChatSystem) (e : MarketEntry)
    (hm : lookupA st.market_data "USDC_WETH" = some e) :
    (e.change24h = 0.025 → trend_following_strategy st =
      some ("USDC", "WETH",
        min st.config.default_trade_amount
          (balGet st.balance "USDC" * st.config.risk_factor))) ∧
    (e.change24h = -0.02 → trend_following_strategy st =
      some ("WETH", "USDC",
        min 0.1 (balGet st.balance "WETH" * st.config.risk_factor))) ∧
    (e.change24h = 0 → trend_following_strategy st = none) ∧
    (e.change24h = 0.025 → balGet st.balance "USDC" = 0 →
      0 ≤ st.config.default_trade_amount →
      trend_following_strategy st = some ("USDC", "WETH", 0)) := by
  refine ⟨?_, ?_, ?_, ?_⟩
  · intro h
    unfold trend_following_strategy
    rw [hm]
    dsimp only
    rw [if_pos (by rw [h]; norm_num)]
  · intro h
    unfold trend_following_strategy
    rw [hm]
    dsimp only
    rw [if_neg (by rw [h]; norm_num), if_pos (by rw [h]; norm_num)]
  · intro h
    unfold trend_following_strategy
    rw [hm]
    dsimp only
    rw [if_neg (by rw [h]; norm_num), if_neg (by rw [h]; norm_num)]
  · intro h hb hd
    unfold trend_following_strategy
    rw [hm]
    dsimp only
    rw [if_pos (by rw [h]; norm_num), hb, zero_mul, min_eq_right hd]

/-- C8 (witness): the amended zero-balance clause evaluated on the
concrete state. -/
theorem C8_witness : trend_following_strategy c8St = some ("USDC", "WETH", 0) :=
  (C8_amended c8St ⟨0.00048, 0.025, 0.0005, 0.00046, 42500000⟩
    (by decide)).2.2.2 rfl (by decide) (by decide)

/-- C9: a successful alert check fires exactly the first eligible alert in
user-then-insertion scan order — every earlier alert is triggered already,
priceless, or below target — flips only that alert, and leaves every other
part of the system state unchanged. -/
theorem C9_first_alert_only :
    (∀ (md : List (String × MarketEntry)) (us : List (String × List Alert))
       (u : String) (a : Alert) (us' : List (String × List Alert)),
      check_alerts md us = some ((u, a), us') →
      ∃ us₁ pre post us₂,
        us = us₁ ++ (u, pre ++ a :: post) :: us₂ ∧
        us' = us₁ ++ (u, pre ++ setTriggered a :: post) :: us₂ ∧
        Eligible md a ∧
        (∀ p ∈ us₁, ∀ b ∈ p.2, ¬ Eligible md b) ∧
        (∀ b ∈ pre, ¬ Eligible md b)) ∧
    (∀ st : TradingChatSystem,
      (alert_check_step st).balance = st.balance ∧
      (alert_check_step st).trade_history = st.trade_history ∧
      (alert_check_step st).active_strategy = st.active_strategy ∧
      (alert_check_step st).config = st.config ∧
      (alert_check_step st).market_data = st.market_data ∧
      CtlEq st (alert_check_step st)) :=
  ⟨check_alerts_some, fun st => by
    obtain ⟨h1, h2, h3, h4, h5, h6⟩ := alert_check_frame st
    exact ⟨h1, h4, h3, h5, h6, h2⟩⟩

/-- An alert below the current WETH_BTC price (eligible). -/
def c9al1 : Alert :=
  { id := "ALERT-1", pair := "WETH_BTC", target_price := 0.05,
    created := "", triggered := false }

/-- An alert below the current USDC_DAI price (also eligible, but later). -/
def c9al2 : Alert :=
  { id := "ALERT-2", pair := "USDC_DAI", target_price := 0.5,
    created := "", triggered := false }

/-- C9 (witness): on a state with two simultaneously crossing alerts, the
characterisation is instantiated by the concrete scan. -/
theorem C9_witness :
    ∃ us₁ pre post us₂,
      [("user_001", [c9al1, c9al2])] =
        us₁ ++ ("user_001", pre ++ c9al1 :: post) :: us₂ ∧
      [("user_001", [setTriggered c9al1, c9al2])] =
        us₁ ++ ("user_001", pre ++ setTriggered c9al1 :: post) :: us₂ ∧
      Eligible initMarketData c9al1 ∧
      (∀ p ∈ us₁, ∀ b ∈ p.2, ¬ Eligible initMarketData b) ∧
      (∀ b ∈ pre, ¬ Eligible initMarketData b) :=
  C9_first_alert_only.1 initMarketData [("user_001", [c9al1, c9al2])]
    "user_001" c9al1 [("user_001", [setTriggered c9al1, c9al2])] (by decide)

/-- Alert-handler run: add, add, remove the first, add, for one user. -/
def aSt1 : TradingChatSystem :=
  (manage_alerts "t1" initSys "user_001" (Params.strParam "add weth_btc 0.055")).1

def aSt2 : TradingChatSystem :=
  (manage_alerts "t2" aSt1 "user_001" (Params.strParam "add usdc_weth 1")).1

def aSt3 : TradingChatSystem :=
  (manage_alerts "t3" aSt2 "user_001" (Params.strParam "remove ALERT-1")).1

def aSt4 : TradingChatSystem :=
  (manage_alerts "t4" aSt3 "user_001" (Params.strParam "add dai_usdc 2")).1

/-- C10: a successful `alerts add` always assigns the id `ALERT-` followed
by the user's current alert count plus one, regardless of the ids already
in use; consequently the handler run add, add, remove-the-first, add leaves
the user with two coexisting alerts carrying the same id. -/
theorem C10_alert_id_reuse :
    (∀ (now : String) (st : TradingChatSystem)
       (uid s pairStr priceStr : String) (rest : List String) (q : ℚ),
      splitWs s = "add" :: pairStr :: priceStr :: rest →
      parseFloat priceStr = some q → s ≠ "" →
      (lookupA (manage_alerts now st uid (Params.strParam s)).1.user_state
          uid).getD []
        = ((lookupA st.user_state uid).getD []) ++
          [{ id := "ALERT-" ++
               toString (((lookupA st.user_state uid).getD []).length + 1),
             pair := pyUpper pairStr, target_price := q, created := now,
             triggered := false }]) ∧
    (∃ a b : Alert,
      (lookupA aSt4.user_state "user_001").getD [] = [a, b] ∧
      a.id = b.id ∧ a.pair ≠ b.pair) := by
  constructor
  · intro now st uid s pairStr priceStr rest q hsplit hq hne
    unfold manage_alerts
    dsimp only
    rw [if_neg hne, hsplit]
    dsimp only
    rw [if_pos rfl, hq]
    dsimp only
    rw [lookupA_updPut_self]
    rfl
  · refine ⟨{ id := "ALERT-2", pair := "USDC_WETH", target_price := 1,
              created := "t2", triggered := false },
            { id := "ALERT-2", pair := "DAI_USDC", target_price := 2,
              created := "t4", triggered := false }, by decide, rfl, by decide⟩

/-- C10 (witness): the id rule applied to the first concrete add. -/
theorem C10_witness :
    (lookupA aSt1.user_state "user_001").getD [] =
      ((lookupA initSys.user_state "user_001").getD []) ++
        [{ id := "ALERT-" ++
             toString (((lookupA initSys.user_state "user_001").getD []).length
               + 1),
           pair := pyUpper "weth_btc", target_price := (11 : ℚ)/200,
           created := "t1", triggered := false }] :=
  C10_alert_id_reuse.1 "t1" initSys "user_001" "add weth_btc 0.055"
    "weth_btc" "0.055" [] ((11 : ℚ)/200) (by decide) (by decide) (by decide)

end Recall
